import Mathlib

/-!
Verification development for the tracker repository's time-series analytics
and chart-geometry engine (analytics.js, chart-utils part of the bundle,
chronos-chart.js).

Modelling conventions:
* JS numbers are modelled as exact rationals (ℚ); timestamps are
  milliseconds since the Unix epoch, as in JS Date.
* Math.log10 composed with Math.floor / Math.ceil is modelled exactly by
  integer-valued base-10 logarithms on positive rationals.
* JS Date calendar arithmetic (getFullYear/getMonth/setMonth on month
  starts) is modelled with the standard proleptic Gregorian civil-calendar
  conversions, with UTC as the time zone.
* Math.min(...xs) / Math.max(...xs) are only applied to non-empty arrays
  by the properties below; the empty case (which yields Infinity in JS) is
  given the junk value 0.
-/

namespace Tracker

/-- A chart data point: x is a timestamp in ms, y a numeric value
(chart-utils points, after parseDate on numeric x). -/
structure Point where
  x : ℚ
  y : ℚ
deriving DecidableEq, Repr

/-- A running-metric output point: x is a label string (analytics.js
pushes labels[midIdx] as x). -/
structure LabelPoint where
  x : String
  y : ℚ
deriving DecidableEq, Repr

/-- An entry record: ISO timestamp string and numeric value. -/
structure Entry where
  timestamp : String
  value : ℚ
deriving DecidableEq, Repr

/-- Math.min(...l) for non-empty l; 0 on [] (JS would give Infinity; the
empty case is never used by the theorems below). -/
def jsMin : List ℚ → ℚ
  | [] => 0
  | x :: xs => xs.foldl min x

/-- Math.max(...l) for non-empty l; 0 on []. -/
def jsMax : List ℚ → ℚ
  | [] => 0
  | x :: xs => xs.foldl max x

/-- Fuel-driven base-10 integer logarithm: natLog10Aux fuel n is the
largest k with 10^k ≤ n, provided 1 ≤ n ≤ fuel. Structural recursion so
that the kernel can evaluate it. -/
def natLog10Aux : ℕ → ℕ → ℕ
  | 0, _ => 0
  | fuel + 1, n => if n < 10 then 0 else natLog10Aux fuel (n / 10) + 1

/-- Largest k with 10^k ≤ n (for n ≥ 1). -/
def natLog10 (n : ℕ) : ℕ := natLog10Aux n n

/-- Fuel-driven base-10 ceiling logarithm: smallest k with n ≤ 10^k. -/
def natClog10Aux : ℕ → ℕ → ℕ
  | 0, _ => 0
  | fuel + 1, n => if n ≤ 1 then 0 else natClog10Aux fuel ((n + 9) / 10) + 1

/-- Smallest k with n ≤ 10^k. -/
def natClog10 (n : ℕ) : ℕ := natClog10Aux n n

/-- Math.floor(Math.log10 q) for q > 0, computed exactly on ℚ. -/
def floorLog10 (q : ℚ) : ℤ :=
  if 1 ≤ q then (natLog10 ⌊q⌋.toNat : ℤ) else -(natClog10 ⌈q⁻¹⌉.toNat : ℤ)

/-- Math.ceil(Math.log10 q) for q > 0, computed exactly on ℚ. -/
def ceilLog10 (q : ℚ) : ℤ := -(floorLog10 q⁻¹)

/-! ### analytics.js -/

/-- The day key used for distinct-day counting: analytics.js maps an entry
to format(parseISO(e.timestamp), yyyy-MM-dd), i.e. the date part of the
ISO timestamp, and to the empty string when the timestamp is falsy. -/
def entryDayKey (e : Entry) : String :=
  if e.timestamp = "" then "" else e.timestamp.take 10

/-- The per-field statistics record returned by calculateStats. -/
structure StatsResult where
  mean : ℚ
  dayMean : ℚ
  sum : ℚ
  count : ℚ
  min : ℚ
  q1 : ℚ
  median : ℚ
  q3 : ℚ
  max : ℚ
  first : ℚ
  last : ℚ
deriving DecidableEq, Repr

/-- The zero record returned for empty input. -/
def zeroStats : StatsResult := ⟨0, 0, 0, 0, 0, 0, 0, 0, 0, 0, 0⟩

/-- The getQuantile closure of calculateStats (analytics.js lines 28-37):
linear interpolation at position (n-1)*quantile; the interpolation step is
taken only when index base+1 is defined in the array. Out-of-range JS
accesses (undefined) are given the junk value 0 via getD; the theorems
only use quantile parameters in [0,1], where every access is in range. -/
def getQuantile (sortedValues : List ℚ) (quantile : ℚ) : ℚ :=
  let position : ℚ := ((sortedValues.length : ℚ) - 1) * quantile
  let base : ℤ := ⌊position⌋
  let remainder : ℚ := position - (base : ℚ)
  if 0 ≤ base + 1 ∧ base + 1 < (sortedValues.length : ℤ) then
    sortedValues.getD base.toNat 0 +
      remainder * (sortedValues.getD (base.toNat + 1) 0 - sortedValues.getD base.toNat 0)
  else
    sortedValues.getD base.toNat 0

/-- calculateStats (analytics.js lines 4-60). sortedValues is expected in
ascending order; originalOrder is the same multiset in chronological
order; entries supply timestamps for distinct-day counting. -/
def calculateStats (sortedValues originalOrder : List ℚ) (entries : List Entry) : StatsResult :=
  if sortedValues = [] then zeroStats
  else
    let sum := sortedValues.foldl (· + ·) 0
    let count : ℚ := (sortedValues.length : ℚ)
    let mean := sum / count
    let dayMean : ℚ :=
      if 0 < entries.length then
        let uniqueDays := ((entries.map entryDayKey).dedup).length
        if 0 < uniqueDays then sum / (uniqueDays : ℚ) else 0
      else 0
    let q1 := getQuantile sortedValues (1/4)
    let median := getQuantile sortedValues (1/2)
    let q3 := getQuantile sortedValues (3/4)
    let first := if 0 < originalOrder.length then originalOrder.getD 0 0 else sortedValues.getD 0 0
    let last :=
      if 0 < originalOrder.length then originalOrder.getD (originalOrder.length - 1) 0
      else sortedValues.getD (sortedValues.length - 1) 0
    { mean := mean, dayMean := dayMean, sum := sum, count := count,
      min := sortedValues.getD 0 0, q1 := q1, median := median, q3 := q3,
      max := sortedValues.getD (sortedValues.length - 1) 0,
      first := first, last := last }

/-- The StatsResult field names, i.e. the keys on which a JS property
lookup stats[key] is defined. -/
def statFields : List String :=
  ["mean", "dayMean", "sum", "count", "min", "q1", "median", "q3", "max", "first", "last"]

/-- JS property access stats[key]: some value for a field name, none
(undefined) otherwise. -/
def statGet (s : StatsResult) (key : String) : Option ℚ :=
  if key = "mean" then some s.mean
  else if key = "dayMean" then some s.dayMean
  else if key = "sum" then some s.sum
  else if key = "count" then some s.count
  else if key = "min" then some s.min
  else if key = "q1" then some s.q1
  else if key = "median" then some s.median
  else if key = "q3" then some s.q3
  else if key = "max" then some s.max
  else if key = "first" then some s.first
  else if key = "last" then some s.last
  else none

/-- The per-window statistic value used by calculateRunningMetric at
starting index i (loop body, analytics.js lines 153-155): sort the
W-element window ascending (JS numeric sort on rationals is modelled by
insertionSort) and read the requested field of its stats. -/
def windowStat (values : List ℚ) (windowSize : ℕ) (metric : String) (i : ℕ) : ℚ :=
  let windowValues := (values.drop i).take windowSize
  let sortedWindowValues := windowValues.insertionSort (· ≤ ·)
  (statGet (calculateStats sortedWindowValues windowValues []) metric).getD 0

/-- calculateRunningMetric (analytics.js lines 145-169). A point is pushed
only when stats[metric] is defined (the metric is a StatsResult field) and
labels[midIdx] is truthy (present and non-empty). -/
def calculateRunningMetric (values : List ℚ) (labels : List String) (metric : String)
    (windowSize : ℕ) : List LabelPoint :=
  if values = [] ∨ windowSize < 2 ∨ values.length < windowSize then []
  else
    (List.range (values.length - windowSize + 1)).filterMap fun i =>
      let windowValues := (values.drop i).take windowSize
      let sortedWindowValues := windowValues.insertionSort (· ≤ ·)
      let stats := calculateStats sortedWindowValues windowValues []
      let midIdx := i + (windowSize - 1) / 2
      match statGet stats metric, labels.get? midIdx with
      | some y, some lbl => if lbl = "" then none else some ⟨lbl, y⟩
      | _, _ => none

/-- The statValue computation of calculateSingleSummary (analytics.js
lines 222-239), taken after the period filter: sort the entry values,
compute stats, special-case dayMean, otherwise stats[operation] with
JS fallback (stats[operation] or-else 0). Formatting into a display string
is outside this model. -/
def calculateSingleSummaryStatValue (filteredEntries : List Entry) (operation : String) : ℚ :=
  let rawValues := filteredEntries.map (·.value)
  let values := rawValues.insertionSort (· ≤ ·)
  let stats := calculateStats values rawValues filteredEntries
  if operation = "dayMean" ∧ 0 < filteredEntries.length then
    let uniqueDays := ((filteredEntries.map entryDayKey).dedup).length
    if 0 < uniqueDays then stats.sum / (uniqueDays : ℚ) else 0
  else (statGet stats operation).getD 0

/-- The statValue computation of calculateLegacySummary (analytics.js
lines 327-330), after the period filter: stats[config.stat] with JS
fallback to 0. -/
def calculateLegacySummaryStatValue (filteredEntries : List Entry) (stat : String) : ℚ :=
  let rawValues := filteredEntries.map (·.value)
  let values := rawValues.insertionSort (· ≤ ·)
  let stats := calculateStats values rawValues filteredEntries
  (statGet stats stat).getD 0

/-! ### Gregorian calendar (JS Date, modelled in UTC)

The proleptic Gregorian conversions between days-since-epoch and civil
dates, used to model Date#getFullYear/getMonth/setMonth/setDate on the
month-start instants that chart-utils manipulates. -/

/-- Milliseconds per day. -/
def msPerDay : ℤ := 86400000

/-- JS ToIntegerOrInfinity: truncation toward zero of a finite number. -/
def jsTrunc (q : ℚ) : ℤ := if 0 ≤ q then ⌊q⌋ else ⌈q⌉

/-- Civil date (year, month 1-12, day 1-31) of a days-since-1970-01-01
count (standard civil-from-days algorithm; divisions on the non-negative
intermediates are truncating, the era division is flooring). -/
def civilFromDays (z0 : ℤ) : ℤ × ℤ × ℤ :=
  let z := z0 + 719468
  let era := z.fdiv 146097
  let doe := z - era * 146097
  let yoe := (doe - doe / 1460 + doe / 36524 - doe / 146096) / 365
  let y := yoe + era * 400
  let doy := doe - (365 * yoe + yoe / 4 - yoe / 100)
  let mp := (5 * doy + 2) / 153
  let d := doy - (153 * mp + 2) / 5 + 1
  let m := mp + (if mp < 10 then 3 else -9)
  (y + (if m ≤ 2 then 1 else 0), m, d)

/-- Days since 1970-01-01 of a civil date (standard days-from-civil). -/
def daysFromCivil (y0 m d : ℤ) : ℤ :=
  let y := y0 - (if m ≤ 2 then 1 else 0)
  let era := y.fdiv 400
  let yoe := y - era * 400
  let doy := (153 * (m + (if 2 < m then -3 else 9)) + 2) / 5 + d - 1
  let doe := yoe * 365 + yoe / 4 - yoe / 100 + doy
  era * 146097 + doe - 719468

/-- The month index getMonth() + getFullYear()*12 of a ms timestamp
(months counted from 0, as in JS). -/
def monthIndexOfMs (ms : ℤ) : ℤ :=
  let c := civilFromDays (ms.fdiv msPerDay)
  c.1 * 12 + (c.2.1 - 1)

/-- The ms timestamp of the first day (midnight) of the month with the
given month index. -/
def monthStartMs (idx : ℤ) : ℤ :=
  daysFromCivil (idx.fdiv 12) (idx.fmod 12 + 1) 1 * msPerDay

/-! ### chart-utils (second half of the calendar.js bundle) -/

/-- generateMonthlyTickDates: first-of-month instants from the month
containing minDate, while the month start is at most maxDate. The source
advances a Date month by month; since month starts are strictly increasing
in the month index, the while loop enumerates exactly the month indices
from the month of minDate through the month of maxDate (and runs zero
times when even the first month start exceeds maxDate). -/
def generateMonthlyTickDates (minDate maxDate : ℚ) : List ℚ :=
  let startIdx := monthIndexOfMs (jsTrunc minDate)
  let endMs := jsTrunc maxDate
  if monthStartMs startIdx ≤ endMs then
    let endIdx := monthIndexOfMs endMs
    (List.range (endIdx - startIdx + 1).toNat).map fun i : ℕ =>
      ((monthStartMs (startIdx + (i : ℤ)) : ℤ) : ℚ)
  else []

/-- The log-scale tick loop of generateYValues (chart-utils): the nested
for-d/forEach-m loop flattened over the candidate values, threading
prevMultipleValue (the last pushed tick, initially 0). A candidate is
pushed when it is at least 10^logMin and the previously pushed tick is
still below maxVal. -/
def logTicksLoop (maxVal base : ℚ) : ℚ → List ℚ → List ℚ
  | _, [] => []
  | prev, val :: rest =>
    if base ≤ val ∧ prev < maxVal then val :: logTicksLoop maxVal base val rest
    else logTicksLoop maxVal base prev rest

/-- The integer range [a, b) as a list, for the loop for d = a; d < b. -/
def intRange (a b : ℤ) : List ℤ := (List.range (b - a).toNat).map fun i : ℕ => a + (i : ℤ)

/-- The candidate tick values of the log branch: 10^d * m for d in
[logMin, logMaxCeil) and m in [1, 2, 5, 10], in loop order. -/
def logTickCandidates (logMin logMaxCeil : ℤ) : List ℚ :=
  (intRange logMin logMaxCeil).flatMap fun d =>
    ([1, 2, 5, 10] : List ℚ).map fun m => (10 : ℚ) ^ d * m

/-- The log branch of generateYValues (chart-utils lines 326-345):
enumerate candidates, push under the loop condition, deduplicate (new
Set preserves first occurrences) and sort ascending. -/
def logTicks (minVal maxVal : ℚ) : List ℚ :=
  let logMin := floorLog10 minVal
  let logMax := ceilLog10 maxVal
  let ticks := logTicksLoop maxVal ((10 : ℚ) ^ logMin) 0 (logTickCandidates logMin logMax)
  (ticks.dedup).insertionSort (· ≤ ·)

/-- The linear (nice numbers) branch of generateYValues (chart-utils
lines 347-366). The emission loop for v = graphMin; v ≤ graphMax +
niceStep*0.0001; v += niceStep is rendered as a map over the loop count,
which for niceStep > 0 and graphMin ≤ graphMax is
floor((graphMax + niceStep/10000 - graphMin)/niceStep) + 1. -/
def linearTicks (minVal maxVal : ℚ) (count : ℕ) : List ℚ :=
  let rawStep := (maxVal - minVal) / ((count : ℚ) - 1)
  let magnitude := (10 : ℚ) ^ floorLog10 rawStep
  let res := rawStep / magnitude
  let niceStep0 : ℚ := if res < 3/2 then 1 else if res < 3 then 2 else if res < 7 then 5 else 10
  let niceStep := niceStep0 * magnitude
  let graphMin := (⌊minVal / niceStep⌋ : ℚ) * niceStep
  let graphMax := (⌈maxVal / niceStep⌉ : ℚ) * niceStep
  let steps := (⌊(graphMax + niceStep * (1/10000) - graphMin) / niceStep⌋).toNat
  (List.range (steps + 1)).map fun i : ℕ => graphMin + (i : ℚ) * niceStep

/-- generateYValues (chart-utils lines 315-367): zero-filled for empty
input; a degenerate min = max range is widened first; then the log branch
when logScale is requested and the minimum is positive, the nice-numbers
linear branch otherwise. -/
def generateYValues (values : List ℚ) (count : ℕ) (logScale : Bool) : List ℚ :=
  if values = [] then List.replicate count 0
  else
    let minVal0 := jsMin values
    let maxVal0 := jsMax values
    let minVal := if minVal0 = maxVal0 then (if 0 < minVal0 then minVal0 * (9/10) else minVal0 - 1) else minVal0
    let maxVal := if minVal0 = maxVal0 then (if 0 < maxVal0 then maxVal0 * (11/10) else maxVal0 + 1) else maxVal0
    if logScale = true ∧ 0 < minVal then logTicks minVal maxVal
    else linearTicks minVal maxVal count

/-- The visible window [visibleMinX, visibleMaxX] computed by createXScale
(chart-utils lines 462-481), including the (unreachable) recompute branch
guarded by visibleMinX < minX. -/
def createXScaleWindow (points : List Point) (viewDays panOffset : ℚ) : ℚ × ℚ :=
  let xValues := points.map (·.x)
  let minX := jsMin xValues
  let maxX := jsMax xValues
  if 0 < viewDays then
    let visibleRangeMs := viewDays * (24 * 60 * 60 * 1000)
    let panOffsetMs := panOffset * (24 * 60 * 60 * 1000)
    let visibleMaxX := maxX - panOffsetMs
    let visibleMinX := max minX (visibleMaxX - visibleRangeMs)
    if visibleMinX < minX then (minX, min maxX (minX + visibleRangeMs))
    else (visibleMinX, visibleMaxX)
  else (minX, maxX)

/-- createXScale (chart-utils lines 462-501): the domain-to-pixel mapping.
When the visible span is in (90, 365] days, monthly tick instants are
generated and a timestamp within 2 days of a tick is snapped onto it. -/
def createXScale (points : List Point) (chartWidth viewDays panOffset : ℚ) : ℚ → ℚ :=
  let w := createXScaleWindow points viewDays panOffset
  let visibleMinX := w.1
  let visibleMaxX := w.2
  let dateRangeDays := (visibleMaxX - visibleMinX) / (24 * 60 * 60 * 1000)
  let tickDates :=
    if 90 < dateRangeDays ∧ dateRangeDays ≤ 365 then
      generateMonthlyTickDates visibleMinX visibleMaxX
    else []
  fun date =>
    let x0 := date
    let tolerance : ℚ := 2 * 24 * 60 * 60 * 1000
    let x :=
      if tickDates.length > 0 then
        match tickDates.find? (fun tick => |tick - x0| < tolerance) with
        | some t => t
        | none => x0
      else x0
    (x - visibleMinX) / (visibleMaxX - visibleMinX) * chartWidth

/-- createYScale (chart-utils lines 503-522): value-to-pixel mapping with
origin at the top (larger values map to smaller pixel offsets). The log
branch applies real log10, so the mapping lands in ℝ. -/
noncomputable def createYScale (points : List Point) (chartHeight : ℚ) (logScale : Bool) : ℚ → ℝ :=
  let yValues := points.map (·.y)
  let displayYValues := generateYValues yValues 6 logScale
  let minY := jsMin displayYValues
  let maxY := jsMax displayYValues
  if minY = maxY then fun _ => ((chartHeight / 2 : ℚ) : ℝ)
  else if logScale = true ∧ 0 < minY then fun y =>
    if y ≤ 0 then ((chartHeight : ℚ) : ℝ)
    else ((chartHeight : ℚ) : ℝ) -
      ((Real.logb 10 (y : ℝ) - Real.logb 10 ((minY : ℚ) : ℝ)) /
        (Real.logb 10 ((maxY : ℚ) : ℝ) - Real.logb 10 ((minY : ℚ) : ℝ))) * ((chartHeight : ℚ) : ℝ)
  else fun y => ((chartHeight - (y - minY) / (maxY - minY) * chartHeight : ℚ) : ℝ)

/-- getVisibleDateRange (chart-utils lines 524-540): the reported visible
range. Note the panOffset = 0 case (falsy) takes the second branch, which
does not clamp minDate to the data minimum. -/
def getVisibleDateRange (points : List Point) (viewDays panOffset : ℚ) : ℚ × ℚ :=
  let dates := points.map (·.x)
  let minD := jsMin dates
  let maxD := jsMax dates
  if 0 < viewDays ∧ panOffset ≠ 0 then
    let visibleRangeMs := viewDays * (24 * 60 * 60 * 1000)
    let panOffsetMs := panOffset * (24 * 60 * 60 * 1000)
    let maxDate := maxD - panOffsetMs
    (max minD (maxDate - visibleRangeMs), maxDate)
  else if 0 < viewDays then (maxD - viewDays * (24 * 60 * 60 * 1000), maxD)
  else (minD, maxD)

/-- getTotalDataDays (chart-utils lines 446-460) on a datasets list:
points with falsy x (0) are dropped; empty data gives 0. -/
def getTotalDataDays (chartData : List (List Point)) : ℚ :=
  let allPoints := chartData.flatMap fun dataset => dataset.filter fun p => p.x ≠ 0
  if allPoints = [] then 0
  else
    let dates := allPoints.map (·.x)
    (jsMax dates - jsMin dates) / (24 * 60 * 60 * 1000)

/-! ### chronos-chart.js panning state machine

The mutable per-instance state of a ChronosChart element that the pan
logic touches, and the event handlers as a step function. Rendering,
resize and theme observers are outside the model. -/

/-- The pan-relevant fields of a ChronosChart instance. data holds the
datasets (each a point list), as consumed by getTotalDataDays. -/
structure ChartState where
  data : List (List Point)
  panOffset : ℚ
  isPanning : Bool
  panStartX : ℚ
  panStartOffset : ℚ
  maxPanOffset : ℚ
  viewDays : ℚ
  originalViewDays : ℚ
deriving DecidableEq, Repr

/-- The constructor state: empty data, all pan fields zero, default
options.viewDays = 0. -/
def initialChartState : ChartState :=
  { data := [], panOffset := 0, isPanning := false, panStartX := 0,
    panStartOffset := 0, maxPanOffset := 0, viewDays := 0, originalViewDays := 0 }

/-- resetPanState (chronos-chart.js lines 292-299). -/
def resetPanState (s : ChartState) : ChartState :=
  { s with panOffset := 0, isPanning := false, originalViewDays := s.viewDays }

/-- startPan (lines 250-258). -/
def startPan (s : ChartState) (clientX : ℚ) : ChartState :=
  { s with isPanning := true, panStartX := clientX, panStartOffset := s.panOffset }

/-- updatePan (lines 260-276). chartWidth is the container width minus
horizontal padding, an input of the move event in this model. (In ℚ the
division by a zero chartWidth yields 0 where JS would produce NaN; the
final clamp makes the invariant below independent of that case.) -/
def updatePan (s : ChartState) (clientX chartWidth : ℚ) : ChartState :=
  let deltaX := clientX - s.panStartX
  let totalDays := getTotalDataDays s.data
  let visibleDays := s.originalViewDays
  let maxPan := max 0 (totalDays - visibleDays)
  let daysPerPixel := maxPan / chartWidth
  let newOffset := max 0 (min maxPan (s.panStartOffset + deltaX * daysPerPixel))
  { s with maxPanOffset := maxPan, panOffset := newOffset, viewDays := visibleDays }

/-- endPan (lines 278-286): only the isPanning flag changes state. -/
def endPan (s : ChartState) : ChartState := { s with isPanning := false }

/-- panTo (lines 813-820). -/
def panTo (s : ChartState) (offsetDays : ℚ) : ChartState :=
  if 0 < s.viewDays then
    let totalDays := getTotalDataDays s.data
    let maxOffset := max 0 (totalDays - s.originalViewDays)
    { s with panOffset := max 0 (min maxOffset offsetDays) }
  else s

/-- The external events acting on the pan state: pointer down/move/up
(with viewDays and isPanning guards as in the handlers), the panTo API,
the data setter, the view-days attribute handler, and the options setter
invoked with a value that carries viewDays. -/
inductive ChartEvent where
  | pointerDown (clientX : ℚ)
  | pointerMove (clientX chartWidth : ℚ)
  | pointerUp
  | panToCall (offsetDays : ℚ)
  | setData (d : List (List Point))
  | setViewDaysAttr (v : ℚ)
  | setOptionsViewDays (v : ℚ)
deriving DecidableEq, Repr

/-- One event step. setData and the view-days attribute handler call
resetPanState; the options setter (chronos-chart.js lines 92-96) updates
viewDays and originalViewDays but performs no reset. -/
def chartStep (s : ChartState) : ChartEvent → ChartState
  | .pointerDown clientX => if 0 < s.viewDays then startPan s clientX else s
  | .pointerMove clientX chartWidth =>
    if s.isPanning = true ∧ 0 < s.viewDays then updatePan s clientX chartWidth else s
  | .pointerUp => if s.isPanning = true then endPan s else s
  | .panToCall offsetDays => panTo s offsetDays
  | .setData d => resetPanState { s with data := d }
  | .setViewDaysAttr v => resetPanState { s with viewDays := v, originalViewDays := v }
  | .setOptionsViewDays v => { s with viewDays := v, originalViewDays := v }

/-- Run an event list from the constructor state. -/
def runChart (events : List ChartEvent) : ChartState :=
  events.foldl chartStep initialChartState

/-- The ViewportState invariant claimed by the spec:
0 ≤ panOffsetDays ≤ max(0, totalDomainDays − viewDays). -/
def PanInvariant (s : ChartState) : Prop :=
  0 ≤ s.panOffset ∧ s.panOffset ≤ max 0 (getTotalDataDays s.data - s.viewDays)

instance (s : ChartState) : Decidable (PanInvariant s) := by
  unfold PanInvariant; infer_instance

/-- Events other than the options setter (the reset-performing surface of
the claim). -/
def eventAllowed : ChartEvent → Bool
  | .setOptionsViewDays _ => false
  | _ => true

/-- The combined inductive invariant for the pan machine: viewDays agrees
with originalViewDays, and the pan offset is within the claimed bounds. -/
def PanInvariantStrong (s : ChartState) : Prop :=
  s.viewDays = s.originalViewDays ∧ PanInvariant s

/-! ## Helper lemmas -/

theorem foldl_min_le_init (xs : List ℚ) (a : ℚ) : xs.foldl min a ≤ a := by
  induction xs generalizing a with
  | nil => exact le_refl a
  | cons y ys ih =>
    calc (y :: ys).foldl min a = ys.foldl min (min a y) := rfl
    _ ≤ min a y := ih (min a y)
    _ ≤ a := min_le_left a y

theorem foldl_min_le_mem {xs : List ℚ} {x : ℚ} (a : ℚ) (h : x ∈ xs) :
    xs.foldl min a ≤ x := by
  induction xs generalizing a with
  | nil => exact absurd h (List.not_mem_nil x)
  | cons y ys ih =>
    rcases List.mem_cons.mp h with rfl | hmem
    · calc (x :: ys).foldl min a = ys.foldl min (min a x) := rfl
      _ ≤ min a x := foldl_min_le_init ys (min a x)
      _ ≤ x := min_le_right a x
    · exact ih (min a y) hmem

theorem le_foldl_max_init (xs : List ℚ) (a : ℚ) : a ≤ xs.foldl max a := by
  induction xs generalizing a with
  | nil => exact le_refl a
  | cons y ys ih =>
    calc a ≤ max a y := le_max_left a y
    _ ≤ ys.foldl max (max a y) := ih (max a y)
    _ = (y :: ys).foldl max a := rfl

theorem le_foldl_max_mem {xs : List ℚ} {x : ℚ} (a : ℚ) (h : x ∈ xs) :
    x ≤ xs.foldl max a := by
  induction xs generalizing a with
  | nil => exact absurd h (List.not_mem_nil x)
  | cons y ys ih =>
    rcases List.mem_cons.mp h with rfl | hmem
    · calc x ≤ max a x := le_max_right a x
      _ ≤ ys.foldl max (max a x) := le_foldl_max_init ys (max a x)
      _ = (x :: ys).foldl max a := rfl
    · exact ih (max a y) hmem

theorem jsMin_le_of_mem {l : List ℚ} {x : ℚ} (h : x ∈ l) : jsMin l ≤ x := by
  match l, h with
  | y :: ys, h =>
    rcases List.mem_cons.mp h with rfl | hmem
    · exact foldl_min_le_init ys x
    · exact foldl_min_le_mem y hmem

theorem le_jsMax_of_mem {l : List ℚ} {x : ℚ} (h : x ∈ l) : x ≤ jsMax l := by
  match l, h with
  | y :: ys, h =>
    rcases List.mem_cons.mp h with rfl | hmem
    · exact le_foldl_max_init ys x
    · exact le_foldl_max_mem y hmem

theorem jsMin_le_jsMax {l : List ℚ} (h : l ≠ []) : jsMin l ≤ jsMax l := by
  match l, h with
  | x :: xs, _ =>
    exact le_trans (jsMin_le_of_mem (List.mem_cons_self x xs))
      (le_jsMax_of_mem (List.mem_cons_self x xs))

/-! ## C1 -/

/-- C1 (counterexample): the claim states that when visibleMin clamps at
domainMin, createXScale recomputes visibleMax = min(domainMax,
visibleMin + viewDays). On points spanning days 0..100 with viewDays = 50
and panOffset = 80, the clamp fires (visibleMax − viewDays is below
domainMin) yet the code keeps visibleMax = 20 days instead of the claimed
min(100 days, 0 + 50 days) = 50 days: the recompute branch is dead. -/
theorem c1_recompute_counterexample :
    (createXScaleWindow [⟨0, 1⟩, ⟨8640000000, 1⟩] 50 80).2 - 50 * (24 * 60 * 60 * 1000) < 0 ∧
    (createXScaleWindow [⟨0, 1⟩, ⟨8640000000, 1⟩] 50 80).1 = 0 ∧
    (createXScaleWindow [⟨0, 1⟩, ⟨8640000000, 1⟩] 50 80).2 ≠
      min 8640000000 (0 + 50 * (24 * 60 * 60 * 1000)) := by
  norm_num [createXScaleWindow, jsMin, jsMax, min_def, max_def]

/-- C1 (amended): for a non-empty point set, viewDays > 0 and
panOffset ≥ 0, createXScale computes visibleMax = domainMax − panOffset
and visibleMin = max(domainMin, visibleMax − viewDays); the recompute
branch never fires (so visibleMax is not adjusted when the clamp is
active), and the visible span still never exceeds the data span. -/
theorem c1_visible_window (points : List Point) (viewDays panOffset : ℚ)
    (hne : points ≠ []) (hv : 0 < viewDays) (hp : 0 ≤ panOffset) :
    (createXScaleWindow points viewDays panOffset).2 =
      jsMax (points.map (·.x)) - panOffset * (24 * 60 * 60 * 1000) ∧
    (createXScaleWindow points viewDays panOffset).1 =
      max (jsMin (points.map (·.x)))
        (jsMax (points.map (·.x)) - panOffset * (24 * 60 * 60 * 1000) -
          viewDays * (24 * 60 * 60 * 1000)) ∧
    (createXScaleWindow points viewDays panOffset).2 -
        (createXScaleWindow points viewDays panOffset).1 ≤
      jsMax (points.map (·.x)) - jsMin (points.map (·.x)) := by
  have hporfl : points ≠ [] := hne
  unfold createXScaleWindow
  rw [if_pos hv]
  set minX := jsMin (points.map (·.x)) with hminX
  set maxX := jsMax (points.map (·.x)) with hmaxX
  set b := maxX - panOffset * (24 * 60 * 60 * 1000) with hb
  have hnotlt : ¬ max minX (b - viewDays * (24 * 60 * 60 * 1000)) < minX :=
    not_lt.mpr (le_max_left _ _)
  rw [if_neg hnotlt]
  refine ⟨rfl, rfl, ?_⟩
  have hble : b ≤ maxX := by
    have : 0 ≤ panOffset * (24 * 60 * 60 * 1000) := by positivity
    simp [hb]; linarith
  have hminle : minX ≤ max minX (b - viewDays * (24 * 60 * 60 * 1000)) := le_max_left _ _
  simp only []
  linarith

/-- C1 witness: the amended window equations at points spanning
0..100 days with viewDays = 50 and panOffset = 80. -/
theorem c1_visible_window_witness :
    (createXScaleWindow [⟨0, 1⟩, ⟨8640000000, 1⟩] 50 80).2 =
      jsMax (([⟨0, 1⟩, ⟨8640000000, 1⟩] : List Point).map (·.x)) - 80 * (24 * 60 * 60 * 1000) ∧
    (createXScaleWindow [⟨0, 1⟩, ⟨8640000000, 1⟩] 50 80).1 =
      max (jsMin (([⟨0, 1⟩, ⟨8640000000, 1⟩] : List Point).map (·.x)))
        (jsMax (([⟨0, 1⟩, ⟨8640000000, 1⟩] : List Point).map (·.x)) - 80 * (24 * 60 * 60 * 1000) -
          50 * (24 * 60 * 60 * 1000)) ∧
    (createXScaleWindow [⟨0, 1⟩, ⟨8640000000, 1⟩] 50 80).2 -
        (createXScaleWindow [⟨0, 1⟩, ⟨8640000000, 1⟩] 50 80).1 ≤
      jsMax (([⟨0, 1⟩, ⟨8640000000, 1⟩] : List Point).map (·.x)) -
        jsMin (([⟨0, 1⟩, ⟨8640000000, 1⟩] : List Point).map (·.x)) :=
  c1_visible_window [⟨0, 1⟩, ⟨8640000000, 1⟩] 50 80 (by decide) (by decide) (by decide)

/-! ## C9 -/

/-- C9: with viewDays > 0 and panOffset = 0, getVisibleDateRange reports
minDate = maxDate − viewDays·86400000 without clamping to the data
minimum, so when that value lies below the earliest data timestamp the
reported range starts before any data point; createXScale, on the same
arguments, clamps its visible minimum to the data minimum. -/
theorem c9_visible_range_unclamped (points : List Point) (viewDays : ℚ)
    (hne : points ≠ []) (hv : 0 < viewDays) :
    (getVisibleDateRange points viewDays 0).1 =
      jsMax (points.map (·.x)) - viewDays * (24 * 60 * 60 * 1000) ∧
    (createXScaleWindow points viewDays 0).1 =
      max (jsMin (points.map (·.x)))
        (jsMax (points.map (·.x)) - viewDays * (24 * 60 * 60 * 1000)) ∧
    (jsMax (points.map (·.x)) - viewDays * (24 * 60 * 60 * 1000) < jsMin (points.map (·.x)) →
      (getVisibleDateRange points viewDays 0).1 < jsMin (points.map (·.x)) ∧
      (createXScaleWindow points viewDays 0).1 = jsMin (points.map (·.x))) := by
  have h1 : (getVisibleDateRange points viewDays 0).1 =
      jsMax (points.map (·.x)) - viewDays * (24 * 60 * 60 * 1000) := by
    unfold getVisibleDateRange
    rw [if_neg (by simp), if_pos hv]
  have h2 : (createXScaleWindow points viewDays 0).1 =
      max (jsMin (points.map (·.x)))
        (jsMax (points.map (·.x)) - viewDays * (24 * 60 * 60 * 1000)) := by
    have := c1_visible_window points viewDays 0 hne hv le_rfl
    rw [this.2.1]
    norm_num
  refine ⟨h1, h2, fun hlt => ⟨?_, ?_⟩⟩
  · rw [h1]; exact hlt
  · rw [h2, max_eq_left (le_of_lt hlt)]

/-- C9 witness: points spanning 0..10 days with viewDays = 50: the
reported range starts 40 days before the data minimum while the x-scale
window is clamped at it. -/
theorem c9_visible_range_unclamped_witness :
    (getVisibleDateRange [⟨0, 1⟩, ⟨864000000, 1⟩] 50 0).1 =
      jsMax (([⟨0, 1⟩, ⟨864000000, 1⟩] : List Point).map (·.x)) - 50 * (24 * 60 * 60 * 1000) ∧
    (createXScaleWindow [⟨0, 1⟩, ⟨864000000, 1⟩] 50 0).1 =
      max (jsMin (([⟨0, 1⟩, ⟨864000000, 1⟩] : List Point).map (·.x)))
        (jsMax (([⟨0, 1⟩, ⟨864000000, 1⟩] : List Point).map (·.x)) -
          50 * (24 * 60 * 60 * 1000)) ∧
    (jsMax (([⟨0, 1⟩, ⟨864000000, 1⟩] : List Point).map (·.x)) - 50 * (24 * 60 * 60 * 1000) <
        jsMin (([⟨0, 1⟩, ⟨864000000, 1⟩] : List Point).map (·.x)) →
      (getVisibleDateRange [⟨0, 1⟩, ⟨864000000, 1⟩] 50 0).1 <
          jsMin (([⟨0, 1⟩, ⟨864000000, 1⟩] : List Point).map (·.x)) ∧
      (createXScaleWindow [⟨0, 1⟩, ⟨864000000, 1⟩] 50 0).1 =
        jsMin (([⟨0, 1⟩, ⟨864000000, 1⟩] : List Point).map (·.x))) :=
  c9_visible_range_unclamped [⟨0, 1⟩, ⟨864000000, 1⟩] 50 (by decide) (by decide)

/-! ## C2 -/

/-- C2 (counterexample): the claim asserts the offset bound holds at all
times, and that any viewDays change (including via the options setter)
forces panOffset to 0. Trace: load 100 days of data, set view-days
attribute to 10, panTo 90 (within bounds), then set viewDays to 50
through the options setter. The setter performs no reset, so the offset
stays 90, violating 90 ≤ max(0, 100 − 50) = 50, and is not forced to 0. -/
theorem c2_pan_invariant_counterexample :
    ¬ PanInvariant (runChart
      [.setData [[⟨1, 1⟩, ⟨8640000001, 1⟩]], .setViewDaysAttr 10,
       .panToCall 90, .setOptionsViewDays 50]) ∧
    (runChart
      [.setData [[⟨1, 1⟩, ⟨8640000001, 1⟩]], .setViewDaysAttr 10,
       .panToCall 90, .setOptionsViewDays 50]).panOffset ≠ 0 := by
  have hdata : getTotalDataDays [[⟨1, 1⟩, ⟨8640000001, 1⟩]] = 100 := by
    norm_num [getTotalDataDays, jsMin, jsMax, min_def, max_def, List.cons_ne_nil]
  simp only [PanInvariant, runChart, List.foldl, chartStep, resetPanState, panTo,
    initialChartState]
  norm_num [hdata, min_def, max_def]

/-- One step of the pan machine preserves the strengthened invariant,
for every event other than the options setter. -/
theorem chartStep_preserves_invariant (s : ChartState) (e : ChartEvent)
    (hs : PanInvariantStrong s) (he : eventAllowed e = true) :
    PanInvariantStrong (chartStep s e) := by
  obtain ⟨hvo, h0, hub⟩ := hs
  cases e with
  | pointerDown clientX =>
    simp only [chartStep]
    split
    · exact ⟨hvo, h0, hub⟩
    · exact ⟨hvo, h0, hub⟩
  | pointerMove clientX chartWidth =>
    simp only [chartStep]
    split
    · exact ⟨rfl, le_max_left _ _, max_le (le_max_left _ _) (min_le_left _ _)⟩
    · exact ⟨hvo, h0, hub⟩
  | pointerUp =>
    simp only [chartStep]
    split
    · exact ⟨hvo, h0, hub⟩
    · exact ⟨hvo, h0, hub⟩
  | panToCall offsetDays =>
    simp only [chartStep, panTo]
    split
    · refine ⟨hvo, le_max_left _ _, ?_⟩
      show max 0 (min (max 0 (getTotalDataDays s.data - s.originalViewDays)) offsetDays) ≤
        max 0 (getTotalDataDays s.data - s.viewDays)
      rw [hvo]
      exact max_le (le_max_left _ _) (min_le_left _ _)
    · exact ⟨hvo, h0, hub⟩
  | setData d =>
    exact ⟨rfl, le_refl 0, le_max_left 0 _⟩
  | setViewDaysAttr v =>
    exact ⟨rfl, le_refl 0, le_max_left 0 _⟩
  | setOptionsViewDays v =>
    simp [eventAllowed] at he

/-- Folding allowed events preserves the strengthened invariant. -/
theorem foldl_chartStep_invariant (events : List ChartEvent) (s : ChartState)
    (hs : PanInvariantStrong s) (hall : ∀ e ∈ events, eventAllowed e = true) :
    PanInvariantStrong (events.foldl chartStep s) := by
  induction events generalizing s with
  | nil => exact hs
  | cons e es ih =>
    exact ih (chartStep s e)
      (chartStep_preserves_invariant s e hs (hall e (List.mem_cons_self e es)))
      (fun e' he' => hall e' (List.mem_cons_of_mem e he'))

/-- C2 (amended): after any event sequence made of pan start/move/end,
panTo calls, data reloads and view-days attribute changes, the offset
satisfies 0 ≤ panOffset ≤ max(0, totalDomainDays − viewDays); data
reloads and view-days attribute changes force the offset to 0 and end any
active pan. viewDays changes through the options setter are excluded:
they reset neither the offset nor the interaction state (see the
counterexample). -/
theorem c2_pan_invariant (events : List ChartEvent) (s : ChartState)
    (d : List (List Point)) (v : ℚ)
    (hall : ∀ e ∈ events, eventAllowed e = true) :
    PanInvariant (runChart events) ∧
    (chartStep s (.setData d)).panOffset = 0 ∧
    (chartStep s (.setData d)).isPanning = false ∧
    (chartStep s (.setViewDaysAttr v)).panOffset = 0 ∧
    (chartStep s (.setViewDaysAttr v)).isPanning = false := by
  have hinit : PanInvariantStrong initialChartState := by
    refine ⟨rfl, le_refl 0, le_max_left 0 _⟩
  exact ⟨(foldl_chartStep_invariant events initialChartState hinit hall).2,
    rfl, rfl, rfl, rfl⟩

/-- C2 witness: the invariant after a concrete allowed trace (data load,
view-days attribute change, panTo), plus the forced reset equations at a
concrete state. -/
theorem c2_pan_invariant_witness :
    PanInvariant (runChart
      [.setData [[⟨1, 1⟩, ⟨8640000001, 1⟩]], .setViewDaysAttr 10, .panToCall 90]) ∧
    (chartStep initialChartState (.setData [[⟨5, 7⟩]])).panOffset = 0 ∧
    (chartStep initialChartState (.setData [[⟨5, 7⟩]])).isPanning = false ∧
    (chartStep initialChartState (.setViewDaysAttr 30)).panOffset = 0 ∧
    (chartStep initialChartState (.setViewDaysAttr 30)).isPanning = false :=
  c2_pan_invariant
    [.setData [[⟨1, 1⟩, ⟨8640000001, 1⟩]], .setViewDaysAttr 10, .panToCall 90]
    initialChartState [[⟨5, 7⟩]] 30 (by decide)

/-! ## C5 and C10: statGet lemmas -/

theorem statGet_not_field {op : String} (s : StatsResult) (h : op ∉ statFields) :
    statGet s op = none := by
  simp only [statFields, List.mem_cons, List.not_mem_nil, or_false] at h
  push_neg at h
  obtain ⟨h1, h2, h3, h4, h5, h6, h7, h8, h9, h10, h11⟩ := h
  unfold statGet
  rw [if_neg h1, if_neg h2, if_neg h3, if_neg h4, if_neg h5, if_neg h6, if_neg h7,
    if_neg h8, if_neg h9, if_neg h10, if_neg h11]

theorem statGet_dayMean (s : StatsResult) : statGet s "dayMean" = some s.dayMean := rfl

theorem calculateStats_dayMean_no_entries (l o : List ℚ) :
    (calculateStats l o []).dayMean = 0 := by
  by_cases h : l = [] <;> simp [calculateStats, h, zeroStats]

/-! ## C10 -/

/-- C10: every point emitted by calculateRunningMetric with metric
dayMean has y = 0: the window stats are computed from
calculateStats(sortedWindow, window) with no entries argument, and
calculateStats leaves dayMean at 0 when it has no entries. -/
theorem c10_running_dayMean_zero (values : List ℚ) (labels : List String) (W : ℕ)
    (h2 : 2 ≤ W) (hN : W ≤ values.length) (p : LabelPoint)
    (hp : p ∈ calculateRunningMetric values labels "dayMean" W) : p.y = 0 := by
  unfold calculateRunningMetric at hp
  have hcond : ¬(values = [] ∨ W < 2 ∨ values.length < W) := by
    push_neg
    refine ⟨?_, by omega, by omega⟩
    intro hv
    rw [hv] at hN
    simp at hN
    omega
  rw [if_neg hcond] at hp
  obtain ⟨i, _, hfi⟩ := List.mem_filterMap.mp hp
  dsimp only at hfi
  rw [statGet_dayMean] at hfi
  cases hget : labels.get? (i + (W - 1) / 2) with
  | none =>
    rw [hget] at hfi
    simp at hfi
  | some lbl =>
    rw [hget] at hfi
    dsimp only at hfi
    by_cases hlbl : lbl = ""
    · rw [if_pos hlbl] at hfi
      exact absurd hfi (by simp)
    · rw [if_neg hlbl] at hfi
      have hy := congrArg LabelPoint.y (Option.some.inj hfi)
      rw [← hy, calculateStats_dayMean_no_entries]

/-- C10 witness: the dayMean running metric on [1,2,3] with window 2
emits the point with label a, and its y is 0. -/
theorem c10_running_dayMean_zero_witness :
    (⟨"a", 0⟩ : LabelPoint).y = 0 :=
  c10_running_dayMean_zero [1, 2, 3] ["a", "b", "c"] 2 (by decide) (by decide)
    ⟨"a", 0⟩ (by decide)

/-! ## C5 -/

/-- C5 (counterexample): the claim says the running-metric calculator,
too, produces the value 0 for an unknown statistic id. In fact it skips
every window (stats[metric] is undefined), so for values [1,2], labels
[a,b], metric bogus, window 2 it returns no points at all instead of the
one zero-valued point the claim predicts. -/
theorem c5_unknown_id_counterexample :
    calculateRunningMetric [1, 2] ["a", "b"] "bogus" 2 = [] ∧
    (calculateRunningMetric [1, 2] ["a", "b"] "bogus" 2).length ≠ 2 - 2 + 1 := by
  decide

/-- C5 (amended): for a non-empty entry list and an identifier that is
not a StatsResult field name, the two summary calculators fall back to
the value 0; the running-metric calculator does not produce 0-valued
points but returns the empty list. -/
theorem c5_unknown_id_fallback (entries : List Entry) (op : String)
    (values : List ℚ) (labels : List String) (W : ℕ)
    (hne : entries ≠ []) (hop : op ∉ statFields) :
    calculateSingleSummaryStatValue entries op = 0 ∧
    calculateLegacySummaryStatValue entries op = 0 ∧
    calculateRunningMetric values labels op W = [] := by
  have hsg : ∀ s : StatsResult, statGet s op = none := fun s => statGet_not_field s hop
  have hdm : op ≠ "dayMean" := by
    intro h
    exact hop (h ▸ (by decide : ("dayMean" : String) ∈ statFields))
  refine ⟨?_, ?_, ?_⟩
  · unfold calculateSingleSummaryStatValue
    rw [if_neg (fun h => hdm h.1)]
    simp only [hsg, Option.getD_none]
  · unfold calculateLegacySummaryStatValue
    simp only [hsg, Option.getD_none]
  · unfold calculateRunningMetric
    split
    · rfl
    · rw [List.filterMap_eq_nil_iff]
      intro i _
      simp only [hsg]

/-- C5 witness: the fallbacks at a concrete entry list and the unknown
identifier bogus. -/
theorem c5_unknown_id_fallback_witness :
    calculateSingleSummaryStatValue [⟨"2024-01-01T10:00:00", 5⟩] "bogus" = 0 ∧
    calculateLegacySummaryStatValue [⟨"2024-01-01T10:00:00", 5⟩] "bogus" = 0 ∧
    calculateRunningMetric [1, 2, 3] ["a", "b", "c"] "bogus" 2 = [] :=
  c5_unknown_id_fallback [⟨"2024-01-01T10:00:00", 5⟩] "bogus" [1, 2, 3] ["a", "b", "c"] 2
    (by decide) (by decide)

/-! ## C3 -/

theorem filterMap_eq_map_of_forall_some {α β : Type} (l : List α) (f : α → Option β)
    (g : α → β) (h : ∀ a ∈ l, f a = some (g a)) : l.filterMap f = l.map g := by
  induction l with
  | nil => rfl
  | cons a as ih =>
    rw [List.map_cons, List.filterMap_cons, h a (List.mem_cons_self a as),
      ih (fun a' ha' => h a' (List.mem_cons_of_mem a ha'))]

theorem statGet_mem_field {op : String} (s : StatsResult) (h : op ∈ statFields) :
    ∃ v, statGet s op = some v := by
  simp only [statFields, List.mem_cons, List.not_mem_nil, or_false] at h
  rcases h with h | h | h | h | h | h | h | h | h | h | h <;> subst h <;> exact ⟨_, rfl⟩

/-- The running-metric loop drops no window when the metric is a
StatsResult field and every label is present and non-empty: the result is
exactly the map of the loop body over the window starting indices. -/
theorem running_metric_full (values : List ℚ) (labels : List String) (metric : String)
    (W : ℕ) (h2 : 2 ≤ W) (hWN : W ≤ values.length) (hlen : labels.length = values.length)
    (hlab : ∀ l ∈ labels, l ≠ "") (hm : metric ∈ statFields) :
    calculateRunningMetric values labels metric W =
      (List.range (values.length - W + 1)).map fun i =>
        ⟨labels.getD (i + (W - 1) / 2) "", windowStat values W metric i⟩ := by
  have hcond : ¬(values = [] ∨ W < 2 ∨ values.length < W) := by
    push_neg
    refine ⟨?_, by omega, by omega⟩
    intro hv
    rw [hv] at hWN
    simp at hWN
    omega
  unfold calculateRunningMetric
  rw [if_neg hcond]
  apply filterMap_eq_map_of_forall_some
  intro i hi
  have hiN : i ≤ values.length - W := by
    have := List.mem_range.mp hi
    omega
  have hmid : i + (W - 1) / 2 < labels.length := by
    rw [hlen]
    omega
  obtain ⟨v, hv⟩ := statGet_mem_field
    (calculateStats ((List.take W (List.drop i values)).insertionSort (· ≤ ·))
      (List.take W (List.drop i values)) []) hm
  have hget : labels.get? (i + (W - 1) / 2) = some (labels.get ⟨i + (W - 1) / 2, hmid⟩) :=
    List.get?_eq_get hmid
  have hgetD : labels.getD (i + (W - 1) / 2) "" = labels.get ⟨i + (W - 1) / 2, hmid⟩ := by
    rw [List.getD_eq_get?, hget]
    rfl
  dsimp only
  rw [hv, hget]
  dsimp only
  rw [if_neg (hlab _ (labels.get_mem _ _))]
  rw [hgetD]
  have hws : windowStat values W metric i = v := by
    unfold windowStat
    dsimp only
    rw [hv]
    rfl
  rw [hws]

/-- C3 (counterexample): the claim promises exactly max(0, N−W+1) points
for every aligned labels list and statistic id. A falsy (empty) label
drops its point: values [1,2], labels [empty, b], window 2, metric mean
yield 0 points instead of 1. An id that is not a StatsResult field drops
every point: values [1,2,3], labels [a,b,c], metric nope, window 2 yield
0 points instead of 2. -/
theorem c3_running_metric_counterexample :
    (calculateRunningMetric [1, 2] ["", "b"] "mean" 2).length ≠ 2 - 2 + 1 ∧
    (calculateRunningMetric [1, 2, 3] ["a", "b", "c"] "nope" 2).length ≠ 3 - 2 + 1 := by
  decide

/-- C3 (amended): for N ≥ W ≥ 2, labels aligned to values with every
label non-empty, and a statistic id that is a StatsResult field,
calculateRunningMetric returns exactly N−W+1 points, the point for
starting index i carrying the label at index i+⌊(W−1)/2⌋ and the
requested statistic of the W-window at i; it returns [] when W < 2 or
N < W; and the documented example (values [1..5], window 3, mean) yields
exactly the 3 points with y-values [2,3,4]. -/
theorem c3_running_metric_shape (values : List ℚ) (labels : List String) (metric : String)
    (W : ℕ) (values' : List ℚ) (labels' : List String) (W' : ℕ)
    (h2 : 2 ≤ W) (hWN : W ≤ values.length) (hlen : labels.length = values.length)
    (hlab : ∀ l ∈ labels, l ≠ "") (hm : metric ∈ statFields)
    (hbad : W' < 2 ∨ values'.length < W') :
    calculateRunningMetric values labels metric W =
      ((List.range (values.length - W + 1)).map fun i =>
        ⟨labels.getD (i + (W - 1) / 2) "", windowStat values W metric i⟩) ∧
    (calculateRunningMetric values labels metric W).length = values.length - W + 1 ∧
    calculateRunningMetric values' labels' metric W' = [] ∧
    (calculateRunningMetric [1, 2, 3, 4, 5] ["a", "b", "c", "d", "e"] "mean" 3).map
      LabelPoint.y = [2, 3, 4] := by
  have hmain := running_metric_full values labels metric W h2 hWN hlen hlab hm
  refine ⟨hmain, ?_, ?_, ?_⟩
  · rw [hmain, List.length_map, List.length_range]
  · unfold calculateRunningMetric
    rw [if_pos (Or.inr hbad)]
  · rw [running_metric_full [1, 2, 3, 4, 5] ["a", "b", "c", "d", "e"] "mean" 3
      (by norm_num) (by norm_num) (by norm_num) (by decide) (by decide)]
    have e0 : windowStat [1, 2, 3, 4, 5] 3 "mean" 0 = 2 := by
      norm_num [windowStat, calculateStats, statGet, List.insertionSort, List.orderedInsert,
        List.cons_ne_nil, List.take, List.drop]
    have e1 : windowStat [1, 2, 3, 4, 5] 3 "mean" 1 = 3 := by
      norm_num [windowStat, calculateStats, statGet, List.insertionSort, List.orderedInsert,
        List.cons_ne_nil, List.take, List.drop]
    have e2 : windowStat [1, 2, 3, 4, 5] 3 "mean" 2 = 4 := by
      norm_num [windowStat, calculateStats, statGet, List.insertionSort, List.orderedInsert,
        List.cons_ne_nil, List.take, List.drop]
    norm_num [List.range_succ, e0, e1, e2]

/-! ## C6 -/

theorem nice_step_bounds (minV maxV s : ℚ) (hs : 0 < s) :
    ((⌊minV / s⌋ : ℚ) * s ≤ minV) ∧ (maxV ≤ (⌈maxV / s⌉ : ℚ) * s) ∧
    (⌊((⌈maxV / s⌉ : ℚ) * s + s * (1/10000) - (⌊minV / s⌋ : ℚ) * s) / s⌋ =
      ⌈maxV / s⌉ - ⌊minV / s⌋) := by
  have hne : s ≠ 0 := ne_of_gt hs
  refine ⟨?_, ?_, ?_⟩
  · calc (⌊minV / s⌋ : ℚ) * s ≤ (minV / s) * s :=
      mul_le_mul_of_nonneg_right (Int.floor_le _) (le_of_lt hs)
    _ = minV := div_mul_cancel₀ minV hne
  · calc maxV = (maxV / s) * s := (div_mul_cancel₀ maxV hne).symm
    _ ≤ (⌈maxV / s⌉ : ℚ) * s := mul_le_mul_of_nonneg_right (Int.le_ceil _) (le_of_lt hs)
  · have heq : ((⌈maxV / s⌉ : ℚ) * s + s * (1/10000) - (⌊minV / s⌋ : ℚ) * s) / s =
        ((⌈maxV / s⌉ - ⌊minV / s⌋ : ℤ) : ℚ) + 1/10000 := by
      field_simp
      ring
    rw [heq, Int.floor_int_add]
    norm_num

/-- The linear tick list in closed form: for some threshold-selected
multiplier m and the magnitude exponent k, the output is every multiple
of m*10^k from floor(min/step)*step to ceil(max/step)*step inclusive. -/
theorem linearTicks_spec (minV maxV : ℚ) (count : ℕ) :
    ∃ (m : ℚ) (k : ℤ), (m = 1 ∨ m = 2 ∨ m = 5 ∨ m = 10) ∧
      linearTicks minV maxV count =
        (List.range ((⌈maxV / (m * 10 ^ k)⌉ - ⌊minV / (m * 10 ^ k)⌋).toNat + 1)).map
          (fun i : ℕ => (⌊minV / (m * 10 ^ k)⌋ : ℚ) * (m * 10 ^ k) + (i : ℚ) * (m * 10 ^ k)) ∧
      (⌊minV / (m * 10 ^ k)⌋ : ℚ) * (m * 10 ^ k) ≤ minV ∧
      maxV ≤ (⌈maxV / (m * 10 ^ k)⌉ : ℚ) * (m * 10 ^ k) := by
  unfold linearTicks
  dsimp only
  set rs := (maxV - minV) / ((count : ℚ) - 1) with hrs
  set k := floorLog10 rs with hk
  set mag := (10 : ℚ) ^ k with hmag
  have hmagpos : (0 : ℚ) < mag := zpow_pos (by norm_num) k
  by_cases h1 : rs / mag < 3/2
  · refine ⟨1, k, Or.inl rfl, ?_⟩
    rw [if_pos h1]
    have hspos : (0 : ℚ) < 1 * mag := by linarith
    obtain ⟨b1, b2, b3⟩ := nice_step_bounds minV maxV (1 * mag) hspos
    rw [b3]
    exact ⟨rfl, b1, b2⟩
  · rw [if_neg h1]
    by_cases h2 : rs / mag < 3
    · refine ⟨2, k, Or.inr (Or.inl rfl), ?_⟩
      rw [if_pos h2]
      have hspos : (0 : ℚ) < 2 * mag := by linarith
      obtain ⟨b1, b2, b3⟩ := nice_step_bounds minV maxV (2 * mag) hspos
      rw [b3]
      exact ⟨rfl, b1, b2⟩
    · rw [if_neg h2]
      by_cases h3 : rs / mag < 7
      · refine ⟨5, k, Or.inr (Or.inr (Or.inl rfl)), ?_⟩
        rw [if_pos h3]
        have hspos : (0 : ℚ) < 5 * mag := by linarith
        obtain ⟨b1, b2, b3⟩ := nice_step_bounds minV maxV (5 * mag) hspos
        rw [b3]
        exact ⟨rfl, b1, b2⟩
      · refine ⟨10, k, Or.inr (Or.inr (Or.inr rfl)), ?_⟩
        rw [if_neg h3]
        have hspos : (0 : ℚ) < 10 * mag := by linarith
        obtain ⟨b1, b2, b3⟩ := nice_step_bounds minV maxV (10 * mag) hspos
        rw [b3]
        exact ⟨rfl, b1, b2⟩

/-- C6: for a value list with minimum strictly below maximum, the linear
nice-numbers generator uses a step m*10^k with m in 1,2,5,10 (selected by
the documented thresholds, k the magnitude exponent of rawStep) and emits
every multiple of the step from graphMin = floor(min/step)*step up to
graphMax = ceil(max/step)*step inclusive, with graphMin ≤ data minimum
and data maximum ≤ graphMax. -/
theorem c6_nice_ticks (values : List ℚ) (count : ℕ) (_hc : 2 ≤ count)
    (hne : values ≠ []) (hlt : jsMin values < jsMax values) :
    ∃ (m : ℚ) (k : ℤ), (m = 1 ∨ m = 2 ∨ m = 5 ∨ m = 10) ∧
      generateYValues values count false =
        (List.range ((⌈jsMax values / (m * 10 ^ k)⌉ - ⌊jsMin values / (m * 10 ^ k)⌋).toNat + 1)).map
          (fun i : ℕ => (⌊jsMin values / (m * 10 ^ k)⌋ : ℚ) * (m * 10 ^ k) + (i : ℚ) * (m * 10 ^ k)) ∧
      (⌊jsMin values / (m * 10 ^ k)⌋ : ℚ) * (m * 10 ^ k) ≤ jsMin values ∧
      jsMax values ≤ (⌈jsMax values / (m * 10 ^ k)⌉ : ℚ) * (m * 10 ^ k) := by
  have hdisp : generateYValues values count false =
      linearTicks (jsMin values) (jsMax values) count := by
    unfold generateYValues
    rw [if_neg hne]
    dsimp only
    simp only [if_neg (ne_of_lt hlt)]
    simp
  rw [hdisp]
  exact linearTicks_spec (jsMin values) (jsMax values) count

/-- C6 witness: the nice-ticks characterization at values [0, 10] with
the default count 6 (step 2, ticks 0,2,4,6,8,10). -/
theorem c6_nice_ticks_witness :
    ∃ (m : ℚ) (k : ℤ), (m = 1 ∨ m = 2 ∨ m = 5 ∨ m = 10) ∧
      generateYValues [0, 10] 6 false =
        (List.range ((⌈jsMax [0, 10] / (m * 10 ^ k)⌉ - ⌊jsMin [0, 10] / (m * 10 ^ k)⌋).toNat + 1)).map
          (fun i : ℕ => (⌊jsMin [0, 10] / (m * 10 ^ k)⌋ : ℚ) * (m * 10 ^ k) + (i : ℚ) * (m * 10 ^ k)) ∧
      (⌊jsMin [0, 10] / (m * 10 ^ k)⌋ : ℚ) * (m * 10 ^ k) ≤ jsMin [0, 10] ∧
      jsMax [0, 10] ≤ (⌈jsMax [0, 10] / (m * 10 ^ k)⌉ : ℚ) * (m * 10 ^ k) :=
  c6_nice_ticks [0, 10] 6 (by decide) (by decide) (by norm_num [jsMin, jsMax, min_def, max_def])

/-! ## C7 -/

theorem sorted_getD_mono {l : List ℚ} (hs : l.Sorted (· ≤ ·)) {i j : ℕ}
    (hij : i ≤ j) (hj : j < l.length) : l.getD i 0 ≤ l.getD j 0 := by
  have hi : i < l.length := lt_of_le_of_lt hij hj
  simp only [List.getD_eq_get?, List.get?_eq_get hi, List.get?_eq_get hj, Option.getD_some]
  exact hs.rel_get_of_le (by exact hij)

/-- The linearly interpolated quantile is monotone non-decreasing in the
quantile parameter over [0, 1], for every non-empty ascending list. -/
theorem getQuantile_mono (l : List ℚ) (hne : l ≠ []) (hs : l.Sorted (· ≤ ·))
    (p q : ℚ) (hp : 0 ≤ p) (hpq : p ≤ q) (hq : q ≤ 1) :
    getQuantile l p ≤ getQuantile l q := by
  have hn : 1 ≤ l.length := List.length_pos.mpr hne
  have hn1 : (0 : ℚ) ≤ (l.length : ℚ) - 1 := by
    have : (1 : ℚ) ≤ (l.length : ℚ) := by exact_mod_cast hn
    linarith
  unfold getQuantile
  dsimp only
  set x := ((l.length : ℚ) - 1) * p with hxdef
  set y := ((l.length : ℚ) - 1) * q with hydef
  have hx0 : 0 ≤ x := mul_nonneg hn1 hp
  have hxy : x ≤ y := mul_le_mul_of_nonneg_left hpq hn1
  have hyn : y ≤ (l.length : ℚ) - 1 := by
    calc y ≤ ((l.length : ℚ) - 1) * 1 := mul_le_mul_of_nonneg_left hq hn1
    _ = (l.length : ℚ) - 1 := mul_one _
  set b1 := ⌊x⌋ with hb1def
  set b2 := ⌊y⌋ with hb2def
  have hb10 : 0 ≤ b1 := Int.floor_nonneg.mpr hx0
  have hb20 : 0 ≤ b2 := Int.floor_nonneg.mpr (le_trans hx0 hxy)
  have hb12 : b1 ≤ b2 := Int.floor_le_floor hxy
  have hb2n : b2 ≤ (l.length : ℤ) - 1 := by
    have h1 : b2 ≤ ⌊(l.length : ℚ) - 1⌋ := Int.floor_le_floor hyn
    have h2 : ⌊(l.length : ℚ) - 1⌋ = (l.length : ℤ) - 1 := by
      rw [show ((l.length : ℚ) - 1) = (((l.length : ℤ) - 1 : ℤ) : ℚ) by push_cast; ring]
      exact Int.floor_intCast _
    omega
  have hb2nat : b2.toNat < l.length := by omega
  have hb1nat : b1.toNat < l.length := by omega
  have hr10 : 0 ≤ x - (b1 : ℚ) := sub_nonneg.mpr (Int.floor_le x)
  have hr11 : x - (b1 : ℚ) ≤ 1 := by
    have := Int.lt_floor_add_one x
    linarith
  have hr20 : 0 ≤ y - (b2 : ℚ) := sub_nonneg.mpr (Int.floor_le y)
  rcases lt_or_eq_of_le hb12 with hblt | hbeq
  · -- b1 < b2: interpolate up to v[b1+1], cross to v[b2], stay under the
    -- y-side value
    have hcond1 : 0 ≤ b1 + 1 ∧ b1 + 1 < (l.length : ℤ) := by omega
    rw [if_pos hcond1]
    have hstep1 : l.getD b1.toNat 0 ≤ l.getD (b1.toNat + 1) 0 :=
      sorted_getD_mono hs (Nat.le_succ _) (by omega)
    have hub : l.getD b1.toNat 0 + (x - (b1 : ℚ)) * (l.getD (b1.toNat + 1) 0 - l.getD b1.toNat 0) ≤
        l.getD (b1.toNat + 1) 0 := by
      have h1 : (x - (b1 : ℚ)) * (l.getD (b1.toNat + 1) 0 - l.getD b1.toNat 0) ≤
          l.getD (b1.toNat + 1) 0 - l.getD b1.toNat 0 :=
        mul_le_of_le_one_left (sub_nonneg.mpr hstep1) hr11
      linarith
    have hcross : l.getD (b1.toNat + 1) 0 ≤ l.getD b2.toNat 0 :=
      sorted_getD_mono hs (by omega) hb2nat
    by_cases hcond2 : 0 ≤ b2 + 1 ∧ b2 + 1 < (l.length : ℤ)
    · rw [if_pos hcond2]
      have hstep2 : l.getD b2.toNat 0 ≤ l.getD (b2.toNat + 1) 0 :=
        sorted_getD_mono hs (Nat.le_succ _) (by omega)
      have hlb : l.getD b2.toNat 0 ≤
          l.getD b2.toNat 0 + (y - (b2 : ℚ)) * (l.getD (b2.toNat + 1) 0 - l.getD b2.toNat 0) :=
        le_add_of_nonneg_right (mul_nonneg hr20 (sub_nonneg.mpr hstep2))
      linarith
    · rw [if_neg hcond2]
      linarith
  · -- b1 = b2: both interpolate on the same segment
    rw [← hbeq]
    by_cases hcond : 0 ≤ b1 + 1 ∧ b1 + 1 < (l.length : ℤ)
    · rw [if_pos hcond, if_pos hcond]
      have hstep : l.getD b1.toNat 0 ≤ l.getD (b1.toNat + 1) 0 :=
        sorted_getD_mono hs (Nat.le_succ _) (by omega)
      have hr12 : x - (b1 : ℚ) ≤ y - (b1 : ℚ) := by linarith
      have hmul := mul_le_mul_of_nonneg_right hr12 (sub_nonneg.mpr hstep)
      linarith
    · rw [if_neg hcond, if_neg hcond]

/-- C7: for every non-empty ascending value list and quantile parameters
0 ≤ p ≤ q ≤ 1, the interpolated quantile at p is at most the quantile at
q; in particular q1 ≤ median ≤ q3 in every StatsResult that
calculateStats computes on such a list. -/
theorem c7_quantile_monotone (l o : List ℚ) (e : List Entry) (p q : ℚ)
    (hne : l ≠ []) (hs : l.Sorted (· ≤ ·)) (hp : 0 ≤ p) (hpq : p ≤ q) (hq : q ≤ 1) :
    getQuantile l p ≤ getQuantile l q ∧
    (calculateStats l o e).q1 ≤ (calculateStats l o e).median ∧
    (calculateStats l o e).median ≤ (calculateStats l o e).q3 := by
  have hq1 : (calculateStats l o e).q1 = getQuantile l (1/4) := by
    unfold calculateStats
    rw [if_neg hne]
  have hmed : (calculateStats l o e).median = getQuantile l (1/2) := by
    unfold calculateStats
    rw [if_neg hne]
  have hq3 : (calculateStats l o e).q3 = getQuantile l (3/4) := by
    unfold calculateStats
    rw [if_neg hne]
  refine ⟨getQuantile_mono l hne hs p q hp hpq hq, ?_, ?_⟩
  · rw [hq1, hmed]
    exact getQuantile_mono l hne hs (1/4) (1/2) (by norm_num) (by norm_num) (by norm_num)
  · rw [hmed, hq3]
    exact getQuantile_mono l hne hs (1/2) (3/4) (by norm_num) (by norm_num) (by norm_num)

/-- C7 witness: quantile monotonicity and the q1/median/q3 chain at the
sorted list [10, 20, 30, 40] with p = 1/4, q = 3/4. -/
theorem c7_quantile_monotone_witness :
    getQuantile [10, 20, 30, 40] (1/4) ≤ getQuantile [10, 20, 30, 40] (3/4) ∧
    (calculateStats [10, 20, 30, 40] [] []).q1 ≤ (calculateStats [10, 20, 30, 40] [] []).median ∧
    (calculateStats [10, 20, 30, 40] [] []).median ≤ (calculateStats [10, 20, 30, 40] [] []).q3 :=
  c7_quantile_monotone [10, 20, 30, 40] [] [] (1/4) (3/4) (by decide) (by decide)
    (by norm_num) (by norm_num) (by norm_num)

/-- C3 witness: the shape theorem at values [1..4], labels [a,b,c,d],
metric max, window 2, and the empty case at window 3 on one value. -/
theorem c3_running_metric_shape_witness :
    calculateRunningMetric [1, 2, 3, 4] ["a", "b", "c", "d"] "max" 2 =
      ((List.range (([1, 2, 3, 4] : List ℚ).length - 2 + 1)).map fun i =>
        ⟨["a", "b", "c", "d"].getD (i + (2 - 1) / 2) "", windowStat [1, 2, 3, 4] 2 "max" i⟩) ∧
    (calculateRunningMetric [1, 2, 3, 4] ["a", "b", "c", "d"] "max" 2).length =
      ([1, 2, 3, 4] : List ℚ).length - 2 + 1 ∧
    calculateRunningMetric [1] [] "max" 3 = [] ∧
    (calculateRunningMetric [1, 2, 3, 4, 5] ["a", "b", "c", "d", "e"] "mean" 3).map
      LabelPoint.y = [2, 3, 4] :=
  c3_running_metric_shape [1, 2, 3, 4] ["a", "b", "c", "d"] "max" 2 [1] [] 3
    (by decide) (by decide) (by decide) (by decide) (by decide) (by decide)

/-! ## C8 -/

theorem jsMin_lt_jsMax_of_ne {l : List ℚ} (h : jsMin l ≠ jsMax l) : jsMin l < jsMax l := by
  by_cases hl : l = []
  · subst hl
    exact absurd rfl h
  · exact lt_of_le_of_ne (jsMin_le_jsMax hl) h

/-- generateMonthlyTickDates over the concrete 100-day window starting at
the epoch: the month starts of Jan, Feb, Mar, Apr 1970. -/
theorem monthlyTickDates_eval : generateMonthlyTickDates 0 8640000000 =
    [0, 2678400000, 5097600000, 7776000000] := by
  have e2 : jsTrunc (0 : ℚ) = 0 := by norm_num [jsTrunc]
  have e3 : jsTrunc (8640000000 : ℚ) = 8640000000 := by norm_num [jsTrunc]
  have e1 : monthIndexOfMs 0 = 23640 := by decide
  have e4 : monthIndexOfMs 8640000000 = 23643 := by decide
  have s0 : monthStartMs 23640 = 0 := by decide
  have s1 : monthStartMs 23641 = 2678400000 := by decide
  have s2 : monthStartMs 23642 = 5097600000 := by decide
  have s3 : monthStartMs 23643 = 7776000000 := by decide
  unfold generateMonthlyTickDates
  rw [e2, e3, e1]
  dsimp only
  rw [e4, if_pos (by rw [s0]; norm_num)]
  have h4 : (4 : ℤ).toNat = 4 := rfl
  norm_num [h4, List.range_succ, List.flatMap_cons, List.flatMap_nil, s0, s1, s2, s3]

/-- In the calendar-tick regime, day 30 and day 32 both snap onto the
Feb 1 tick and map to the same pixel. -/
theorem createXScale_snap_collision :
    createXScale [⟨0, 1⟩, ⟨8640000000, 1⟩] 100 0 0 2592000000 =
      createXScale [⟨0, 1⟩, ⟨8640000000, 1⟩] 100 0 0 2764800000 := by
  have hwin : createXScaleWindow [⟨0, 1⟩, ⟨8640000000, 1⟩] 0 0 = (0, 8640000000) := by
    norm_num [createXScaleWindow, jsMin, jsMax, min_def, max_def]
  unfold createXScale
  rw [hwin]
  dsimp only
  norm_num [monthlyTickDates_eval, List.find?, Bool.cond_decide]

theorem floorLog10_two : floorLog10 2 = 0 := by decide

/-- The linear tick list on data 0..10 with the default count. -/
theorem generateYValues_lin_eval : generateYValues [0, 10] 6 false = [0, 2, 4, 6, 8, 10] := by
  have h5 : (5 : ℤ).toNat = 5 := rfl
  norm_num [generateYValues, linearTicks, jsMin, jsMax, min_def, max_def, floorLog10_two, h5,
    List.cons_ne_nil, List.range_succ, List.flatMap_cons, List.flatMap_nil]

/-- The linear Y scale maps the larger value 10 to pixel 0 and the
smaller value 0 to pixel 100: the pixel offset decreases. -/
theorem createYScale_linear_reversal :
    createYScale [⟨0, 0⟩, ⟨0, 10⟩] 100 false 10 < createYScale [⟨0, 0⟩, ⟨0, 10⟩] 100 false 0 := by
  unfold createYScale
  rw [show ([⟨0, 0⟩, ⟨0, 10⟩] : List Point).map (·.y) = [0, 10] from rfl]
  rw [generateYValues_lin_eval]
  have hmin : jsMin [0, 2, 4, 6, 8, 10] = 0 := by norm_num [jsMin, min_def]
  have hmax : jsMax [0, 2, 4, 6, 8, 10] = 10 := by norm_num [jsMax, max_def]
  rw [hmin, hmax]
  rw [if_neg (by norm_num)]
  rw [if_neg (by simp)]
  norm_num

/-- C8 (counterexample): two violations of strict monotonicity. In the
calendar-tick regime (span 100 days), timestamps at day 30 and day 32
snap onto the same month tick and map to the same pixel; and the Y scale
is order-reversing: the larger value 10 maps to a strictly smaller pixel
offset than 0. -/
theorem c8_monotone_counterexample :
    (2592000000 : ℚ) < 2764800000 ∧
    createXScale [⟨0, 1⟩, ⟨8640000000, 1⟩] 100 0 0 2592000000 =
      createXScale [⟨0, 1⟩, ⟨8640000000, 1⟩] 100 0 0 2764800000 ∧
    (0 : ℚ) < 10 ∧
    createYScale [⟨0, 0⟩, ⟨0, 10⟩] 100 false 10 < createYScale [⟨0, 0⟩, ⟨0, 10⟩] 100 false 0 :=
  ⟨by decide, createXScale_snap_collision, by decide, createYScale_linear_reversal⟩

/-- C8 (amended): outside the calendar-tick regime (visible span at most
90 days or above 365 days) the X mapping is strictly increasing on a
non-degenerate window with positive width; the Y mappings are strictly
order-reversing: on a non-degenerate tick range with positive height, a
strictly larger value maps to a strictly smaller pixel offset, linear on
all inputs and log on positive inputs. Within the calendar-tick regime
the X mapping can collapse nearby timestamps (see the counterexample). -/
theorem c8_scale_monotonicity
    (points : List Point) (chartWidth viewDays panOffset t1 t2 : ℚ)
    (pointsY : List Point) (hY y1 y2 : ℚ)
    (pointsL : List Point) (hL z1 z2 : ℚ)
    (hab : (createXScaleWindow points viewDays panOffset).1 <
      (createXScaleWindow points viewDays panOffset).2)
    (hreg : ¬(90 < ((createXScaleWindow points viewDays panOffset).2 -
        (createXScaleWindow points viewDays panOffset).1) / (24 * 60 * 60 * 1000) ∧
      ((createXScaleWindow points viewDays panOffset).2 -
        (createXScaleWindow points viewDays panOffset).1) / (24 * 60 * 60 * 1000) ≤ 365))
    (hcw : 0 < chartWidth) (ht : t1 < t2)
    (hneY : jsMin (generateYValues (pointsY.map (·.y)) 6 false) ≠
      jsMax (generateYValues (pointsY.map (·.y)) 6 false))
    (hHY : 0 < hY) (hy : y1 < y2)
    (hneL : jsMin (generateYValues (pointsL.map (·.y)) 6 true) ≠
      jsMax (generateYValues (pointsL.map (·.y)) 6 true))
    (h0L : 0 < jsMin (generateYValues (pointsL.map (·.y)) 6 true))
    (hHL : 0 < hL) (hz1 : 0 < z1) (hz : z1 < z2) :
    createXScale points chartWidth viewDays panOffset t1 <
      createXScale points chartWidth viewDays panOffset t2 ∧
    createYScale pointsY hY false y2 < createYScale pointsY hY false y1 ∧
    createYScale pointsL hL true z2 < createYScale pointsL hL true z1 := by
  refine ⟨?_, ?_, ?_⟩
  · unfold createXScale
    dsimp only
    rw [if_neg hreg]
    rw [if_neg (by norm_num)]
    have hba : 0 < (createXScaleWindow points viewDays panOffset).2 -
        (createXScaleWindow points viewDays panOffset).1 := sub_pos.mpr hab
    apply mul_lt_mul_of_pos_right _ hcw
    rw [div_lt_div_iff hba hba]
    exact mul_lt_mul_of_pos_right (sub_lt_sub_right ht _) hba
  · have hlt := jsMin_lt_jsMax_of_ne hneY
    unfold createYScale
    rw [if_neg hneY, if_neg (by simp)]
    rw [Rat.cast_lt]
    have hD : 0 < jsMax (generateYValues (pointsY.map (·.y)) 6 false) -
        jsMin (generateYValues (pointsY.map (·.y)) 6 false) := sub_pos.mpr hlt
    have hnum : (y1 - jsMin (generateYValues (pointsY.map (·.y)) 6 false)) /
        (jsMax (generateYValues (pointsY.map (·.y)) 6 false) -
          jsMin (generateYValues (pointsY.map (·.y)) 6 false)) * hY <
        (y2 - jsMin (generateYValues (pointsY.map (·.y)) 6 false)) /
        (jsMax (generateYValues (pointsY.map (·.y)) 6 false) -
          jsMin (generateYValues (pointsY.map (·.y)) 6 false)) * hY := by
      apply mul_lt_mul_of_pos_right _ hHY
      rw [div_lt_div_iff hD hD]
      exact mul_lt_mul_of_pos_right (sub_lt_sub_right hy _) hD
    linarith
  · have hlt := jsMin_lt_jsMax_of_ne hneL
    unfold createYScale
    rw [if_neg hneL, if_pos ⟨rfl, h0L⟩]
    rw [if_neg (not_le.mpr (lt_trans hz1 hz)), if_neg (not_le.mpr hz1)]
    have hb10 : (1 : ℝ) < 10 := by norm_num
    have hD : (0 : ℝ) <
        Real.logb 10 ((jsMax (generateYValues (pointsL.map (·.y)) 6 true) : ℚ) : ℝ) -
        Real.logb 10 ((jsMin (generateYValues (pointsL.map (·.y)) 6 true) : ℚ) : ℝ) := by
      apply sub_pos.mpr
      apply Real.logb_lt_logb hb10
      · exact_mod_cast h0L
      · exact_mod_cast hlt
    have hHL' : (0 : ℝ) < ((hL : ℚ) : ℝ) := by exact_mod_cast hHL
    have hlogz : Real.logb 10 ((z1 : ℚ) : ℝ) < Real.logb 10 ((z2 : ℚ) : ℝ) := by
      apply Real.logb_lt_logb hb10
      · exact_mod_cast hz1
      · exact_mod_cast hz
    have hnum : (Real.logb 10 ((z1 : ℚ) : ℝ) -
          Real.logb 10 ((jsMin (generateYValues (pointsL.map (·.y)) 6 true) : ℚ) : ℝ)) /
        (Real.logb 10 ((jsMax (generateYValues (pointsL.map (·.y)) 6 true) : ℚ) : ℝ) -
          Real.logb 10 ((jsMin (generateYValues (pointsL.map (·.y)) 6 true) : ℚ) : ℝ)) *
          ((hL : ℚ) : ℝ) <
        (Real.logb 10 ((z2 : ℚ) : ℝ) -
          Real.logb 10 ((jsMin (generateYValues (pointsL.map (·.y)) 6 true) : ℚ) : ℝ)) /
        (Real.logb 10 ((jsMax (generateYValues (pointsL.map (·.y)) 6 true) : ℚ) : ℝ) -
          Real.logb 10 ((jsMin (generateYValues (pointsL.map (·.y)) 6 true) : ℚ) : ℝ)) *
          ((hL : ℚ) : ℝ) := by
      apply mul_lt_mul_of_pos_right _ hHL'
      rw [div_lt_div_iff hD hD]
      exact mul_lt_mul_of_pos_right (sub_lt_sub_right hlogz _) hD
    linarith

theorem ceilLog10_hundred : ceilLog10 100 = 2 := by
  unfold ceilLog10 floorLog10
  rw [show ((100 : ℚ)⁻¹) = 1/100 by norm_num]
  rw [if_neg (by norm_num)]
  rw [show ((1/100 : ℚ)⁻¹) = 100 by norm_num]
  rw [show ⌈(100 : ℚ)⌉ = 100 by norm_num]
  decide

theorem floorLog10_one : floorLog10 1 = 0 := by decide

theorem logTickCandidates_eval : logTickCandidates 0 2 = [1, 2, 5, 10, 10, 20, 50, 100] := by
  have h2 : (2 : ℤ).toNat = 2 := rfl
  norm_num [logTickCandidates, intRange, h2, List.range_succ, List.flatMap_cons,
    List.flatMap_nil, zpow_zero, zpow_one, Nat.cast_zero, Nat.cast_one]

theorem logTicksLoop_eval : logTicksLoop 100 1 0 [1, 2, 5, 10, 10, 20, 50, 100] =
    [1, 2, 5, 10, 10, 20, 50, 100] := by
  norm_num [logTicksLoop]

theorem logTicks_dedup_eval :
    ([1, 2, 5, 10, 10, 20, 50, 100] : List ℚ).dedup = [1, 2, 5, 10, 20, 50, 100] := by
  decide

theorem logTicks_sort_eval : (([1, 2, 5, 10, 20, 50, 100] : List ℚ).insertionSort (· ≤ ·)) =
    [1, 2, 5, 10, 20, 50, 100] := by
  decide

/-- generateYValues dispatches to the log branch when logScale is set,
the data minimum is positive and the range is non-degenerate. -/
theorem generateYValues_log_dispatch (values : List ℚ) (count : ℕ) (hne : values ≠ [])
    (hlt : jsMin values < jsMax values) (h0 : 0 < jsMin values) :
    generateYValues values count true = logTicks (jsMin values) (jsMax values) := by
  unfold generateYValues
  rw [if_neg hne]
  dsimp only
  simp only [if_neg (ne_of_lt hlt)]
  rw [if_pos ⟨trivial, h0⟩]

/-- The log tick list on data 1..100. -/
theorem generateYValues_log_eval : generateYValues [1, 100] 6 true = [1, 2, 5, 10, 20, 50, 100] := by
  have hmin : jsMin [(1 : ℚ), 100] = 1 := by norm_num [jsMin, min_def]
  have hmax : jsMax [(1 : ℚ), 100] = 100 := by norm_num [jsMax, max_def]
  rw [generateYValues_log_dispatch [1, 100] 6 (by decide) (by rw [hmin, hmax]; norm_num)
    (by rw [hmin]; norm_num)]
  rw [hmin, hmax]
  unfold logTicks
  rw [floorLog10_one, ceilLog10_hundred]
  dsimp only
  rw [show ((10 : ℚ) ^ (0 : ℤ)) = 1 by norm_num]
  rw [logTickCandidates_eval, logTicksLoop_eval, logTicks_dedup_eval, logTicks_sort_eval]

/-- C8 witness: strict X monotonicity on a 1-day window, and strict
order reversal of the linear scale on ticks 0..10 and of the log scale
on ticks 1..100. -/
theorem c8_scale_monotonicity_witness :
    createXScale [⟨0, 1⟩, ⟨86400000, 1⟩] 100 0 0 0 <
      createXScale [⟨0, 1⟩, ⟨86400000, 1⟩] 100 0 0 86400000 ∧
    createYScale [⟨0, 0⟩, ⟨0, 10⟩] 100 false 10 < createYScale [⟨0, 0⟩, ⟨0, 10⟩] 100 false 0 ∧
    createYScale [⟨0, 1⟩, ⟨0, 100⟩] 50 true 10 < createYScale [⟨0, 1⟩, ⟨0, 100⟩] 50 true 1 :=
  c8_scale_monotonicity [⟨0, 1⟩, ⟨86400000, 1⟩] 100 0 0 0 86400000
    [⟨0, 0⟩, ⟨0, 10⟩] 100 0 10 [⟨0, 1⟩, ⟨0, 100⟩] 50 1 10
    (by norm_num [createXScaleWindow, jsMin, jsMax, min_def, max_def])
    (by norm_num [createXScaleWindow, jsMin, jsMax, min_def, max_def])
    (by decide) (by decide)
    (by rw [show ([⟨0, 0⟩, ⟨0, 10⟩] : List Point).map (·.y) = [0, 10] from rfl,
      generateYValues_lin_eval]; norm_num [jsMin, jsMax, min_def, max_def])
    (by decide) (by decide)
    (by rw [show ([⟨0, 1⟩, ⟨0, 100⟩] : List Point).map (·.y) = [1, 100] from rfl,
      generateYValues_log_eval]; norm_num [jsMin, jsMax, min_def, max_def])
    (by rw [show ([⟨0, 1⟩, ⟨0, 100⟩] : List Point).map (·.y) = [1, 100] from rfl,
      generateYValues_log_eval]; norm_num [jsMin, min_def])
    (by decide) (by decide) (by decide)

theorem mem_intRange {a b d : ℤ} : d ∈ intRange a b ↔ a ≤ d ∧ d < b := by
  simp only [intRange, List.mem_map, List.mem_range]
  constructor
  · rintro ⟨i, hi, rfl⟩
    omega
  · rintro ⟨h1, h2⟩
    exact ⟨(d - a).toNat, by omega, by omega⟩

theorem intRange_eq_cons {a b : ℤ} (h : a < b) : intRange a b = a :: intRange (a + 1) b := by
  unfold intRange
  rw [show (b - a).toNat = (b - (a + 1)).toNat + 1 by omega, List.range_succ_eq_map,
    List.map_cons, List.map_map]
  refine congrArg₂ List.cons (by norm_num) ?_
  apply List.map_congr_left
  intro i _
  simp only [Function.comp]
  push_cast
  ring

theorem logTickCandidates_lower {a b : ℤ} {x : ℚ} (hx : x ∈ logTickCandidates a b) :
    (10 : ℚ) ^ a ≤ x := by
  simp only [logTickCandidates, List.mem_flatMap, List.mem_map, List.mem_cons,
    List.not_mem_nil, or_false] at hx
  obtain ⟨d, hd, m, hm, rfl⟩ := hx
  have had : a ≤ d := (mem_intRange.mp hd).1
  have h1 : (10 : ℚ) ^ a ≤ (10 : ℚ) ^ d := zpow_le_zpow_right₀ (by norm_num) had
  have hm1 : (1 : ℚ) ≤ m := by
    rcases hm with rfl | rfl | rfl | rfl <;> norm_num
  calc (10 : ℚ) ^ a ≤ (10 : ℚ) ^ d := h1
  _ ≤ (10 : ℚ) ^ d * m := le_mul_of_one_le_right (le_of_lt (zpow_pos (by norm_num) d)) hm1

theorem logTickCandidates_forms {a b : ℤ} {x : ℚ} (hx : x ∈ logTickCandidates a b) :
    ∃ k : ℤ, x = (10 : ℚ) ^ k ∨ x = 2 * (10 : ℚ) ^ k ∨ x = 5 * (10 : ℚ) ^ k := by
  simp only [logTickCandidates, List.mem_flatMap, List.mem_map, List.mem_cons,
    List.not_mem_nil, or_false] at hx
  obtain ⟨d, _, m, hm, rfl⟩ := hx
  rcases hm with rfl | rfl | rfl | rfl
  · exact ⟨d, Or.inl (mul_one _)⟩
  · exact ⟨d, Or.inr (Or.inl (mul_comm _ _))⟩
  · exact ⟨d, Or.inr (Or.inr (mul_comm _ _))⟩
  · refine ⟨d + 1, Or.inl ?_⟩
    rw [zpow_add_one₀ (by norm_num)]

theorem logTickCandidates_sorted : ∀ (n : ℕ) (a b : ℤ), (b - a).toNat = n →
    (logTickCandidates a b).Sorted (· ≤ ·) := by
  intro n
  induction n with
  | zero =>
    intro a b hn
    have : intRange a b = [] := by
      unfold intRange
      rw [hn]
      rfl
    unfold logTickCandidates
    rw [this]
    exact List.sorted_nil
  | succ k ih =>
    intro a b hn
    have hab : a < b := by omega
    unfold logTickCandidates
    rw [intRange_eq_cons hab, List.flatMap_cons]
    apply List.pairwise_append.mpr
    refine ⟨?_, ?_, ?_⟩
    · have hp : (0 : ℚ) < (10 : ℚ) ^ a := zpow_pos (by norm_num) a
      refine .cons ?_ (.cons ?_ (.cons ?_ (.cons (by simp) .nil)))
      · intro y hy
        simp only [List.map_cons, List.map_nil, List.mem_cons, List.not_mem_nil, or_false] at hy
        rcases hy with rfl | rfl | rfl <;> (dsimp only; nlinarith)
      · intro y hy
        simp only [List.map_cons, List.map_nil, List.mem_cons, List.not_mem_nil, or_false] at hy
        rcases hy with rfl | rfl <;> (dsimp only; nlinarith)
      · intro y hy
        simp only [List.map_cons, List.map_nil, List.mem_cons, List.not_mem_nil, or_false] at hy
        rcases hy with rfl <;> (dsimp only; nlinarith)
    · exact ih (a + 1) b (by omega)
    · intro x hxmem y hymem
      have hy : (10 : ℚ) ^ (a + 1) ≤ y := logTickCandidates_lower hymem
      have hx10 : x ≤ (10 : ℚ) ^ a * 10 := by
        simp only [List.map_cons, List.map_nil, List.mem_cons, List.not_mem_nil,
          or_false, List.mem_singleton] at hxmem
        have hp : (0 : ℚ) < (10 : ℚ) ^ a := zpow_pos (by norm_num) a
        rcases hxmem with rfl | rfl | rfl | rfl <;> nlinarith
      calc x ≤ (10 : ℚ) ^ a * 10 := hx10
      _ = (10 : ℚ) ^ (a + 1) := by rw [zpow_add_one₀ (by norm_num)]
      _ ≤ y := hy
theorem logTicksLoop_sublist (maxV base : ℚ) : ∀ (S : List ℚ) (prev : ℚ),
    List.Sublist (logTicksLoop maxV base prev S) S := by
  intro S
  induction S with
  | nil => intro prev; rw [logTicksLoop]
  | cons v rest ih =>
    intro prev
    rw [logTicksLoop]
    split
    · exact List.Sublist.cons₂ v (ih v)
    · exact List.Sublist.cons v (ih prev)

theorem mem_logTicksLoop (maxV base : ℚ) : ∀ (S : List ℚ) (prev c : ℚ),
    S.Sorted (· ≤ ·) → prev < maxV → c ∈ S → base ≤ c → c ≤ maxV →
    c ∈ logTicksLoop maxV base prev S := by
  intro S
  induction S with
  | nil => intro prev c _ _ hc; exact absurd hc (List.not_mem_nil c)
  | cons v rest ih =>
    intro prev c hsort hprev hc hbase hmax
    have hvle : ∀ x ∈ rest, v ≤ x := (List.sorted_cons.mp hsort).1
    have hrest : rest.Sorted (· ≤ ·) := (List.sorted_cons.mp hsort).2
    rw [logTicksLoop]
    by_cases hcond : base ≤ v ∧ prev < maxV
    · rw [if_pos hcond]
      by_cases hcv : c = v
      · exact hcv ▸ List.mem_cons_self c _
      · have hcr : c ∈ rest := (List.mem_cons.mp hc).resolve_left hcv
        have hvc : v < c := lt_of_le_of_ne (hvle c hcr) (Ne.symm hcv)
        exact List.mem_cons_of_mem v (ih v c hrest (lt_of_lt_of_le hvc hmax) hcr hbase hmax)
    · rw [if_neg hcond]
      have hvb : ¬ base ≤ v := fun h => hcond ⟨h, hprev⟩
      have hcv : c ≠ v := by rintro rfl; exact hvb hbase
      exact ih prev c hrest hprev ((List.mem_cons.mp hc).resolve_left hcv) hbase hmax

theorem sorted_lt_insertionSort_dedup (l : List ℚ) :
    (l.dedup.insertionSort (· ≤ ·)).Sorted (· < ·) := by
  have hs := List.sorted_insertionSort (· ≤ ·) l.dedup
  have hnd : (l.dedup.insertionSort (· ≤ ·)).Nodup :=
    (List.perm_insertionSort (· ≤ ·) l.dedup).nodup_iff.mpr (List.nodup_dedup l)
  exact List.Pairwise.imp₂ (fun a b hle hne => lt_of_le_of_ne hle hne) hs hnd

theorem mem_logTicks {minV maxV x : ℚ} :
    x ∈ logTicks minV maxV ↔
      x ∈ logTicksLoop maxV ((10 : ℚ) ^ floorLog10 minV) 0
        (logTickCandidates (floorLog10 minV) (ceilLog10 maxV)) := by
  unfold logTicks
  dsimp only
  rw [(List.perm_insertionSort (· ≤ ·) _).mem_iff, List.mem_dedup]

theorem logTicks_sorted_lt (minV maxV : ℚ) : (logTicks minV maxV).Sorted (· < ·) := by
  unfold logTicks
  exact sorted_lt_insertionSort_dedup _
theorem natLog10Aux_spec : ∀ (fuel n : ℕ), 1 ≤ n → n ≤ fuel →
    10 ^ natLog10Aux fuel n ≤ n ∧ n < 10 ^ (natLog10Aux fuel n + 1) := by
  intro fuel
  induction fuel with
  | zero => intro n h1 h2; omega
  | succ f ih =>
    intro n h1 h2
    rw [natLog10Aux]
    by_cases h : n < 10
    · rw [if_pos h]
      refine ⟨by simpa using h1, by simpa using h⟩
    · rw [if_neg h]
      have h10 : 10 ≤ n := not_lt.mp h
      have hd1 : 1 ≤ n / 10 := by omega
      have hd2 : n / 10 ≤ f := by omega
      obtain ⟨ha, hb⟩ := ih (n / 10) hd1 hd2
      constructor
      · calc 10 ^ (natLog10Aux f (n / 10) + 1) = 10 * 10 ^ natLog10Aux f (n / 10) := by ring
        _ ≤ 10 * (n / 10) := Nat.mul_le_mul_left 10 ha
        _ ≤ n := by omega
      · calc n < 10 * (n / 10 + 1) := by omega
        _ ≤ 10 * 10 ^ (natLog10Aux f (n / 10) + 1) := Nat.mul_le_mul_left 10 (by omega)
        _ = 10 ^ (natLog10Aux f (n / 10) + 1 + 1) := by ring

theorem natClog10Aux_of_le_one : ∀ (fuel n : ℕ), n ≤ 1 → natClog10Aux fuel n = 0 := by
  intro fuel n h
  cases fuel with
  | zero => rfl
  | succ f => rw [natClog10Aux, if_pos h]

theorem natClog10Aux_spec : ∀ (fuel n : ℕ), n ≤ fuel →
    n ≤ 10 ^ natClog10Aux fuel n ∧ (2 ≤ n → 10 ^ (natClog10Aux fuel n - 1) < n) := by
  intro fuel
  induction fuel with
  | zero =>
    intro n h2
    have hn0 : n = 0 := by omega
    subst hn0
    exact ⟨Nat.zero_le _, fun hc => by omega⟩
  | succ f ih =>
    intro n h2
    rw [natClog10Aux]
    by_cases h : n ≤ 1
    · rw [if_pos h]
      exact ⟨by simpa using h, fun hc => by omega⟩
    · rw [if_neg h]
      have hn2 : 2 ≤ n := by omega
      have hmf : (n + 9) / 10 ≤ f := by omega
      obtain ⟨ha, hb⟩ := ih ((n + 9) / 10) hmf
      constructor
      · calc n ≤ 10 * ((n + 9) / 10) := by omega
        _ ≤ 10 * 10 ^ natClog10Aux f ((n + 9) / 10) := Nat.mul_le_mul_left 10 ha
        _ = 10 ^ (natClog10Aux f ((n + 9) / 10) + 1) := by ring
      · intro _
        by_cases hm2 : 2 ≤ (n + 9) / 10
        · have hk1 : 1 ≤ natClog10Aux f ((n + 9) / 10) := by
            by_contra hk
            have hk0 : natClog10Aux f ((n + 9) / 10) = 0 := by omega
            rw [hk0] at ha
            omega
          have hblt := hb hm2
          have hpow : 10 ^ natClog10Aux f ((n + 9) / 10) =
              10 * 10 ^ (natClog10Aux f ((n + 9) / 10) - 1) := by
            conv_lhs => rw [show natClog10Aux f ((n + 9) / 10) =
              (natClog10Aux f ((n + 9) / 10) - 1) + 1 by omega]
            ring
          have hgoal : 10 ^ natClog10Aux f ((n + 9) / 10) < n := by
            rw [hpow]
            calc 10 * 10 ^ (natClog10Aux f ((n + 9) / 10) - 1) ≤ 10 * ((n + 9) / 10 - 1) :=
              Nat.mul_le_mul_left 10 (by omega)
            _ < n := by omega
          simpa using hgoal
        · rw [natClog10Aux_of_le_one f _ (by omega)]
          simpa using hn2
theorem floorLog10_spec (q : ℚ) (hq : 0 < q) :
    (10 : ℚ) ^ floorLog10 q ≤ q ∧ q < (10 : ℚ) ^ (floorLog10 q + 1) := by
  unfold floorLog10
  by_cases h : 1 ≤ q
  · rw [if_pos h]
    have hfl : 1 ≤ ⌊q⌋ := Int.le_floor.mpr (by exact_mod_cast h)
    have hn1 : 1 ≤ ⌊q⌋.toNat := by omega
    obtain ⟨ha0, hb0⟩ := natLog10Aux_spec ⌊q⌋.toNat ⌊q⌋.toNat hn1 le_rfl
    have ha : 10 ^ natLog10 ⌊q⌋.toNat ≤ ⌊q⌋.toNat := ha0
    have hb : ⌊q⌋.toNat < 10 ^ (natLog10 ⌊q⌋.toNat + 1) := hb0
    have hcast : ((⌊q⌋.toNat : ℚ)) = ((⌊q⌋ : ℤ) : ℚ) := by
      exact_mod_cast congrArg (fun z : ℤ => (z : ℚ)) (Int.toNat_of_nonneg (by omega))
    constructor
    · rw [zpow_natCast]
      have h1 : ((10 : ℚ)) ^ natLog10 ⌊q⌋.toNat ≤ (⌊q⌋.toNat : ℚ) := by exact_mod_cast ha
      have h2 : ((⌊q⌋.toNat : ℚ)) ≤ q := by
        rw [hcast]
        exact Int.floor_le q
      linarith
    · have h1 : ((⌊q⌋.toNat : ℚ)) + 1 ≤ ((10 : ℚ)) ^ (natLog10 ⌊q⌋.toNat + 1) := by
        exact_mod_cast Nat.succ_le_of_lt hb
      have h2 : q < ((⌊q⌋.toNat : ℚ)) + 1 := by
        rw [hcast]
        exact Int.lt_floor_add_one q
      have h3 : ((10 : ℚ)) ^ ((natLog10 ⌊q⌋.toNat : ℤ) + 1) =
          ((10 : ℚ)) ^ (natLog10 ⌊q⌋.toNat + 1) := by
        rw [show ((natLog10 ⌊q⌋.toNat : ℤ) + 1) = ((natLog10 ⌊q⌋.toNat + 1 : ℕ) : ℤ) by
          push_cast; ring]
        rw [zpow_natCast]
      rw [h3]
      linarith
  · rw [if_neg h]
    have hq1 : q < 1 := not_le.mp h
    have hinvpos : 0 < q⁻¹ := inv_pos.mpr hq
    have hinv : 1 < q⁻¹ := (one_lt_inv₀ hq).mpr hq1
    have hceil2 : 2 ≤ ⌈q⁻¹⌉ := by
      have := Int.lt_ceil.mpr (show ((1 : ℤ) : ℚ) < q⁻¹ by exact_mod_cast hinv)
      omega
    have hn2 : 2 ≤ ⌈q⁻¹⌉.toNat := by omega
    obtain ⟨ha0, hb0'⟩ := natClog10Aux_spec ⌈q⁻¹⌉.toNat ⌈q⁻¹⌉.toNat le_rfl
    have ha : ⌈q⁻¹⌉.toNat ≤ 10 ^ natClog10 ⌈q⁻¹⌉.toNat := ha0
    have hb : 10 ^ (natClog10 ⌈q⁻¹⌉.toNat - 1) < ⌈q⁻¹⌉.toNat := hb0' hn2
    have hk1 : 1 ≤ natClog10 ⌈q⁻¹⌉.toNat := by
      by_contra hk
      have hk0 : natClog10 ⌈q⁻¹⌉.toNat = 0 := by omega
      rw [hk0] at ha
      simp at ha
      omega
    have hcastc : ((⌈q⁻¹⌉.toNat : ℚ)) = ((⌈q⁻¹⌉ : ℤ) : ℚ) := by
      exact_mod_cast congrArg (fun z : ℤ => (z : ℚ)) (Int.toNat_of_nonneg (by omega))
    constructor
    · have h1 : q⁻¹ ≤ ((⌈q⁻¹⌉ : ℤ) : ℚ) := Int.le_ceil q⁻¹
      have h2 : ((⌈q⁻¹⌉ : ℤ) : ℚ) ≤ ((10 : ℚ)) ^ natClog10 ⌈q⁻¹⌉.toNat := by
        rw [← hcastc]
        exact_mod_cast ha
      have h3 : q⁻¹ ≤ ((10 : ℚ)) ^ natClog10 ⌈q⁻¹⌉.toNat := le_trans h1 h2
      have h4 := inv_anti₀ hinvpos h3
      rw [inv_inv] at h4
      rw [zpow_neg, zpow_natCast]
      exact h4
    · have h1 : ((10 : ℚ)) ^ (natClog10 ⌈q⁻¹⌉.toNat - 1) + 1 ≤ ((⌈q⁻¹⌉ : ℤ) : ℚ) := by
        rw [← hcastc]
        exact_mod_cast Nat.succ_le_of_lt hb
      have h2 : ((⌈q⁻¹⌉ : ℤ) : ℚ) < q⁻¹ + 1 := Int.ceil_lt_add_one q⁻¹
      have h4 : ((10 : ℚ)) ^ (natClog10 ⌈q⁻¹⌉.toNat - 1) < q⁻¹ := by linarith
      have h5 := inv_strictAnti₀ (by positivity) h4
      rw [inv_inv] at h5
      have hexp : -(natClog10 ⌈q⁻¹⌉.toNat : ℤ) + 1 =
          -((natClog10 ⌈q⁻¹⌉.toNat - 1 : ℕ) : ℤ) := by omega
      rw [hexp, zpow_neg, zpow_natCast]
      exact h5

theorem ceilLog10_spec (q : ℚ) (hq : 0 < q) :
    (10 : ℚ) ^ (ceilLog10 q - 1) < q ∧ q ≤ (10 : ℚ) ^ ceilLog10 q := by
  unfold ceilLog10
  obtain ⟨ha, hb⟩ := floorLog10_spec q⁻¹ (inv_pos.mpr hq)
  constructor
  · have h1 := inv_strictAnti₀ (by positivity) hb
    rw [inv_inv] at h1
    rw [show -floorLog10 q⁻¹ - 1 = -(floorLog10 q⁻¹ + 1) by ring, zpow_neg]
    exact h1
  · have h1 := inv_anti₀ (by positivity) ha
    rw [inv_inv] at h1
    rw [zpow_neg]
    exact h1

theorem candidate_mem (L C k : ℤ) (m : ℚ) (hm : m = 1 ∨ m = 2 ∨ m = 5)
    (hLC : L < C) (hlow : (10 : ℚ) ^ L ≤ m * (10 : ℚ) ^ k)
    (hup : m * (10 : ℚ) ^ k ≤ (10 : ℚ) ^ C) :
    m * (10 : ℚ) ^ k ∈ logTickCandidates L C := by
  have hkpos : (0 : ℚ) < (10 : ℚ) ^ k := zpow_pos (by norm_num) k
  have hm1 : (1 : ℚ) ≤ m := by rcases hm with rfl | rfl | rfl <;> norm_num
  have hm10 : m < 10 := by rcases hm with rfl | rfl | rfl <;> norm_num
  have hLk : L ≤ k := by
    have h1 : (10 : ℚ) ^ L < (10 : ℚ) ^ (k + 1) := by
      calc (10 : ℚ) ^ L ≤ m * (10 : ℚ) ^ k := hlow
      _ < 10 * (10 : ℚ) ^ k := by nlinarith
      _ = (10 : ℚ) ^ (k + 1) := by rw [zpow_add_one₀ (by norm_num : (10 : ℚ) ≠ 0)]; ring
    have := (zpow_lt_zpow_iff_right₀ (by norm_num : (1 : ℚ) < 10)).mp h1
    omega
  have hkC : k ≤ C := by
    have h1 : (10 : ℚ) ^ k ≤ (10 : ℚ) ^ C := by
      calc (10 : ℚ) ^ k ≤ m * (10 : ℚ) ^ k := le_mul_of_one_le_left (le_of_lt hkpos) hm1
      _ ≤ (10 : ℚ) ^ C := hup
    exact (zpow_le_zpow_iff_right₀ (by norm_num : (1 : ℚ) < 10)).mp h1
  rcases lt_or_eq_of_le hkC with hklt | hkeq
  · simp only [logTickCandidates, List.mem_flatMap, List.mem_map]
    refine ⟨k, mem_intRange.mpr ⟨hLk, hklt⟩, m, ?_, mul_comm _ _⟩
    rcases hm with rfl | rfl | rfl <;> simp
  · subst hkeq
    have hmeq : m = 1 := by
      rcases hm with rfl | rfl | rfl
      · rfl
      · nlinarith
      · nlinarith
    subst hmeq
    simp only [logTickCandidates, List.mem_flatMap, List.mem_map]
    refine ⟨k - 1, mem_intRange.mpr ⟨by omega, by omega⟩, 10, by simp, ?_⟩
    rw [one_mul, ← zpow_add_one₀ (by norm_num : (10 : ℚ) ≠ 0)]
    rw [sub_add_cancel]

theorem mem_logTicks_of_candidate (minV maxV : ℚ) (h0 : 0 < minV) (hlt : minV < maxV)
    (k : ℤ) (m : ℚ) (hm : m = 1 ∨ m = 2 ∨ m = 5)
    (hlow : (10 : ℚ) ^ floorLog10 minV ≤ m * (10 : ℚ) ^ k)
    (hup : m * (10 : ℚ) ^ k ≤ maxV) :
    m * (10 : ℚ) ^ k ∈ logTicks minV maxV := by
  have hmax0 : 0 < maxV := lt_trans h0 hlt
  have hLled : (10 : ℚ) ^ floorLog10 minV ≤ minV := (floorLog10_spec minV h0).1
  have hCub : maxV ≤ (10 : ℚ) ^ ceilLog10 maxV := (ceilLog10_spec maxV hmax0).2
  have hLC : floorLog10 minV < ceilLog10 maxV := by
    have h1 : (10 : ℚ) ^ floorLog10 minV < (10 : ℚ) ^ ceilLog10 maxV :=
      lt_of_le_of_lt hLled (lt_of_lt_of_le hlt hCub)
    exact (zpow_lt_zpow_iff_right₀ (by norm_num : (1 : ℚ) < 10)).mp h1
  rw [mem_logTicks]
  apply mem_logTicksLoop
  · exact logTickCandidates_sorted ((ceilLog10 maxV - floorLog10 minV).toNat)
      (floorLog10 minV) (ceilLog10 maxV) rfl
  · exact hmax0
  · exact candidate_mem _ _ k m hm hLC hlow (le_trans hup hCub)
  · exact hlow
  · exact hup

theorem logTicks_forms {minV maxV t : ℚ} (ht : t ∈ logTicks minV maxV) :
    (10 : ℚ) ^ floorLog10 minV ≤ t ∧
      ∃ k : ℤ, t = (10 : ℚ) ^ k ∨ t = 2 * (10 : ℚ) ^ k ∨ t = 5 * (10 : ℚ) ^ k := by
  rw [mem_logTicks] at ht
  have hcand : t ∈ logTickCandidates (floorLog10 minV) (ceilLog10 maxV) :=
    (logTicksLoop_sublist _ _ _ _).subset ht
  exact ⟨logTickCandidates_lower hcand, logTickCandidates_forms hcand⟩

theorem ceilLog10_thirty : ceilLog10 30 = 2 := by
  unfold ceilLog10 floorLog10
  rw [show ((30 : ℚ)⁻¹) = 1/30 by norm_num]
  rw [if_neg (by norm_num)]
  rw [show ((1/30 : ℚ)⁻¹) = 30 by norm_num]
  rw [show ⌈(30 : ℚ)⌉ = 30 by norm_num]
  decide

/-- The log tick list on data [1, 30]: the loop admits 50 because the
acceptance test compares the previous tick (20), not the candidate,
against the maximum. -/
theorem generateYValues_log_eval_thirty :
    generateYValues [1, 30] 6 true = [1, 2, 5, 10, 20, 50] := by
  have hmin : jsMin [(1 : ℚ), 30] = 1 := by norm_num [jsMin, min_def]
  have hmax : jsMax [(1 : ℚ), 30] = 30 := by norm_num [jsMax, max_def]
  rw [generateYValues_log_dispatch [1, 30] 6 (by decide) (by rw [hmin, hmax]; norm_num)
    (by rw [hmin]; norm_num)]
  rw [hmin, hmax]
  unfold logTicks
  rw [floorLog10_one, ceilLog10_thirty]
  dsimp only
  rw [show ((10 : ℚ) ^ (0 : ℤ)) = 1 by norm_num]
  rw [logTickCandidates_eval]
  rw [show logTicksLoop 30 1 0 [1, 2, 5, 10, 10, 20, 50, 100] =
    [1, 2, 5, 10, 10, 20, 50] by norm_num [logTicksLoop]]
  rw [show ([1, 2, 5, 10, 10, 20, 50] : List ℚ).dedup = [1, 2, 5, 10, 20, 50] by decide]
  rw [show (([1, 2, 5, 10, 20, 50] : List ℚ).insertionSort (· ≤ ·)) =
    [1, 2, 5, 10, 20, 50] by decide]

/-- C4 counterexample: on values [1, 30] the log branch emits the tick 50,
which lies strictly above the data maximum 30, so the generated ticks are
not clipped to [min, max]. -/
theorem c4_log_ticks_counterexample :
    ∃ t ∈ generateYValues [1, 30] 6 true, jsMax [(1 : ℚ), 30] < t := by
  refine ⟨50, ?_, ?_⟩
  · rw [generateYValues_log_eval_thirty]
    decide
  · norm_num [jsMax, max_def]

/-- C4 (amended): for a non-empty value list with 0 < min < max, the
log-scale tick generator returns a strictly ascending deduplicated list
whose every element is of the form 1*10^k, 2*10^k or 5*10^k and is at least
10^floor(log10 min); every value of that form lying in
[10^floor(log10 min), max] is emitted, so in particular the largest such
value within [min, max] is never dropped; but the output is not clipped
to [min, max]: ticks below min and one tick beyond max can appear. -/
theorem c4_log_ticks (values : List ℚ) (count : ℕ)
    (hne : values ≠ []) (h0 : 0 < jsMin values) (hlt : jsMin values < jsMax values) :
    (generateYValues values count true).Sorted (· < ·) ∧
    (∀ t ∈ generateYValues values count true,
      (10 : ℚ) ^ floorLog10 (jsMin values) ≤ t ∧
      ∃ k : ℤ, t = (10 : ℚ) ^ k ∨ t = 2 * (10 : ℚ) ^ k ∨ t = 5 * (10 : ℚ) ^ k) ∧
    (∀ (k : ℤ) (m : ℚ), (m = 1 ∨ m = 2 ∨ m = 5) →
      (10 : ℚ) ^ floorLog10 (jsMin values) ≤ m * (10 : ℚ) ^ k →
      m * (10 : ℚ) ^ k ≤ jsMax values →
      m * (10 : ℚ) ^ k ∈ generateYValues values count true) := by
  rw [generateYValues_log_dispatch values count hne hlt h0]
  exact ⟨logTicks_sorted_lt _ _,
    fun t ht => logTicks_forms ht,
    fun k m hm hlow hup => mem_logTicks_of_candidate _ _ h0 hlt k m hm hlow hup⟩

theorem c4_log_ticks_witness :
    (generateYValues [1, 100] 6 true).Sorted (· < ·) ∧
    (∀ t ∈ generateYValues [1, 100] 6 true,
      (10 : ℚ) ^ floorLog10 (jsMin [1, 100]) ≤ t ∧
      ∃ k : ℤ, t = (10 : ℚ) ^ k ∨ t = 2 * (10 : ℚ) ^ k ∨ t = 5 * (10 : ℚ) ^ k) ∧
    (∀ (k : ℤ) (m : ℚ), (m = 1 ∨ m = 2 ∨ m = 5) →
      (10 : ℚ) ^ floorLog10 (jsMin [1, 100]) ≤ m * (10 : ℚ) ^ k →
      m * (10 : ℚ) ^ k ≤ jsMax [1, 100] →
      m * (10 : ℚ) ^ k ∈ generateYValues [1, 100] 6 true) :=
  c4_log_ticks [1, 100] 6 (by decide)
    (by norm_num [jsMin, min_def]) (by norm_num [jsMin, jsMax, min_def, max_def])

end Tracker
